import Mathlib

/-!
Verification of the seisobs Nordic/S-file decoder (d-chambers/seisobs).

This file gives a shallow embedding of the parts of `seisobs/specs.py` and
`seisobs/core.py` that the checked claims are about: the bidirectional
string/typed-value converter (`StringConverter`), the line-type column
registry, line classification and decoding (`Sline.read_line`), the per-type
validators, the magnitude default-elision rule, pick assembly, and the
four-strategy NSLC identifier resolution.

Python values are modelled by `PyVal` (64-bit overflow never occurs in the
decoded fields, so integers are `ℤ`; Python floats are modelled as exact
rationals `ℚ` — every value handled by the claims is exactly representable).
Python exceptions are modelled by `Except SErr`.
-/

namespace Seisobs

/-- The Python runtime types tracked by `StringConverter` (its `accepted_chars`
values: `float`, `str`, `int`). -/
inductive PyType
  | int
  | float
  | str
deriving DecidableEq, Repr

/-- Exact rational arithmetic on unnormalized fractions with positive
denominators.  (Lean's built-in rationals normalize through operations the
kernel cannot evaluate; every constructor below keeps the denominator
positive, and the bridge `PQ.val` maps into `ℚ` for statements.) -/
structure PQ where
  num : ℤ
  den : ℕ
deriving DecidableEq, Repr

namespace PQ

def ofInt (n : ℤ) : PQ := ⟨n, 1⟩

def add (a b : PQ) : PQ := ⟨a.num * b.den + b.num * a.den, a.den * b.den⟩

def neg (a : PQ) : PQ := ⟨-a.num, a.den⟩

/-- Division by a positive natural (the only divisions Python performs here
are by positive powers of ten and converter divisors). -/
def divN (a : PQ) (k : ℕ) : PQ := ⟨a.num, a.den * k⟩

/-- Multiplication by `10 ^ e` for an integer `e`. -/
def mulPow10 (a : PQ) (e : ℤ) : PQ :=
  if 0 ≤ e then ⟨a.num * 10 ^ e.toNat, a.den⟩ else ⟨a.num, a.den * 10 ^ (-e).toNat⟩

def ltb (a b : PQ) : Bool := a.num * b.den < b.num * a.den

def eqb (a b : PQ) : Bool := a.num * (b.den : ℤ) = b.num * (a.den : ℤ)

def negb (a : PQ) : Bool := a.num < 0

def absq (a : PQ) : PQ := ⟨|a.num|, a.den⟩

/-- Floor (valid for a positive denominator). -/
def floorq (a : PQ) : ℤ := a.num.fdiv (a.den : ℤ)

/-- Truncation toward zero, Python `int(x)` on a float. -/
def truncq (a : PQ) : ℤ := a.num.tdiv (a.den : ℤ)

/-- The rational value of the fraction. -/
def val (a : PQ) : ℚ := (a.num : ℚ) / (a.den : ℚ)

end PQ

/-- A Python value as it occurs in the decoded records: an integer, a float
(exact rational), a string, or `None` (which the numeric `str2obj` returns on a
non-blank unparseable slice). -/
inductive PyVal
  | int (n : ℤ)
  | float (q : PQ)
  | str (s : String)
  | none
deriving DecidableEq, Repr

/-- The Python exceptions raised by the decoder: `ValueError`, `TypeError`,
`KeyError`. -/
inductive SErr
  | valueError (msg : String)
  | typeError (msg : String)
  | keyError (msg : String)
deriving DecidableEq, Repr

instance {ε α : Type} [DecidableEq ε] [DecidableEq α] : DecidableEq (Except ε α) :=
  fun x y =>
    match x, y with
    | .ok a, .ok b =>
        if h : a = b then .isTrue (by rw [h]) else .isFalse (fun he => h (Except.ok.inj he))
    | .ok _, .error _ => .isFalse (fun he => Except.noConfusion he)
    | .error _, .ok _ => .isFalse (fun he => Except.noConfusion he)
    | .error e, .error f =>
        if h : e = f then .isTrue (by rw [h]) else .isFalse (fun he => h (Except.error.inj he))

/-! ## Python string primitives -/

/-- The characters removed by Python `str.strip()`: space, tab, newline,
carriage return, vertical tab, form feed. -/
def pyIsSpace (c : Char) : Bool :=
  c = ' ' || c = '\t' || c = '\n' || c = '\r' || c = '\x0b' || c = '\x0c'

/-- `str.strip()` on a character list. -/
def stripL (cs : List Char) : List Char :=
  ((cs.dropWhile pyIsSpace).reverse.dropWhile pyIsSpace).reverse

/-- Python `str.strip()`. -/
def pyStrip (s : String) : String := ⟨stripL s.toList⟩

/-- Python `str.rstrip(os.linesep)` (linesep is a newline). -/
def pyRstripNL (s : String) : String :=
  ⟨(s.toList.reverse.dropWhile (· = '\n')).reverse⟩

/-- Python slicing `s[a:b]` (clamping at the ends, as Python does). -/
def pySlice (s : String) (a b : ℕ) : String :=
  ⟨(s.toList.drop a).take (b - a)⟩

/-- Substring search at every suffix. -/
def infixSearch (n : List Char) : List Char → Bool
  | [] => n.isEmpty
  | c :: t => n.isPrefixOf (c :: t) || infixSearch n t

/-- Substring containment, as pandas `str.contains` with a plain needle. -/
def pyContains (hay needle : String) : Bool :=
  infixSearch needle.toList hay.toList

/-- Python `str.upper()` (ASCII is all that occurs in S-files). -/
def pyUpper (s : String) : String := ⟨s.toList.map Char.toUpper⟩

/-! ## Decimal digits -/

/-- Numeric value of a decimal digit character. -/
def digitVal (c : Char) : ℕ := c.toNat - 48

/-- Value of a most-significant-first digit string, the way Python's `int`/
`float` parsers accumulate it. -/
def digitsVal (cs : List Char) : ℕ :=
  cs.foldl (fun a c => 10 * a + digitVal c) 0

/-- The digit character for `d < 10`. -/
def chrD (d : ℕ) : Char := Char.ofNat (48 + d)

/-- Least-significant-first digit list of `n`, with explicit fuel so the
definition is structural (and hence kernel-reducible). -/
def ndRev : ℕ → ℕ → List ℕ
  | _, 0 => []
  | 0, _ + 1 => []
  | fuel + 1, n + 1 => (n + 1) % 10 :: ndRev fuel ((n + 1) / 10)

/-- Most-significant-first decimal digit characters of `n` (`"0"` for zero), as
produced by C `printf`-style rendering. -/
def natDigitsMSB (n : ℕ) : List Char :=
  if n = 0 then ['0'] else ((ndRev n n).reverse).map chrD

/-- Rendering of an integer: optional minus sign then digits. -/
def intToChars (i : ℤ) : List Char :=
  (if i < 0 then ['-'] else []) ++ natDigitsMSB i.natAbs

/-- Value of a least-significant-first digit list. -/
def vRev : List ℕ → ℕ
  | [] => 0
  | d :: t => d + 10 * vRev t

/-! ## Python `float(...)` and `int(...)` on strings -/

/-- Optional sign at the head of a numeric literal. -/
def spanSign : List Char → Bool × List Char
  | [] => (false, [])
  | c :: t => if c = '-' then (true, t) else if c = '+' then (false, t) else (false, c :: t)

/-- Exponent part of a float literal (after the `e`/`E`). -/
def expVal (cs : List Char) : Option ℤ :=
  let p := spanSign cs
  if p.2 = [] then none
  else if p.2.all Char.isDigit then
    some (if p.1 then -(digitsVal p.2 : ℤ) else (digitsVal p.2 : ℤ))
  else none

/-- Core of Python `float(str)` on an already-stripped character list:
optional sign, digits, optional point and fraction digits, optional exponent;
at least one mantissa digit; nothing may remain.  (The `inf`/`nan` literals are
not modelled; no S-file field or claim input uses them.) -/
def floatCore (cs : List Char) : Option PQ :=
  let p := spanSign cs
  let ip := p.2.takeWhile Char.isDigit
  let r1 := p.2.dropWhile Char.isDigit
  let fr :=
    match r1 with
    | '.' :: t => (t.takeWhile Char.isDigit, t.dropWhile Char.isDigit)
    | _ => ([], r1)
  if ip = [] ∧ fr.1 = [] then none
  else
    let mant : PQ :=
      (PQ.ofInt (digitsVal ip)).add ((PQ.ofInt (digitsVal fr.1)).divN (10 ^ fr.1.length))
    let m := if p.1 then mant.neg else mant
    match fr.2 with
    | [] => some m
    | 'e' :: t => (expVal t).map (fun e => m.mulPow10 e)
    | 'E' :: t => (expVal t).map (fun e => m.mulPow10 e)
    | _ => none

/-- Python `float(s)`: strip whitespace, then parse a float literal. -/
def pyFloat (s : String) : Option PQ := floatCore (stripL s.toList)

/-- Python 2 `int(s)`: strip whitespace, optional sign, decimal digits only. -/
def pyInt (s : String) : Option ℤ :=
  let cs := stripL s.toList
  let p := spanSign cs
  if p.2 = [] then none
  else if p.2.all Char.isDigit then
    some (if p.1 then -(digitsVal p.2 : ℤ) else (digitsVal p.2 : ℤ))
  else none

/-- Python `int(x)` truncation of a float toward zero. -/
def qTrunc (q : PQ) : ℤ := q.truncq

/-! ## The C/Python percent-format engine

`StringConverter` relies on Python's `%` operator.  The engine below covers the
conversions the registry's format strings use: literals, `%s`, `%d`/`%i`,
`%f`, `%%`, the `-` and `0` flags, width and precision, and the ValueError on a
trailing lone percent (which the registered code `3d%` triggers).  Scientific
`%e`/`%E` rendering is not modelled (the registry's `E` fields are only ever
parsed, never rendered, on the paths the claims touch); reaching it gives an
error. -/

/-- Round half to even, the IEEE rounding C `printf` applies (the fraction's
denominator is positive by construction, so comparing twice the remainder with
the denominator decides the half). -/
def rhalfEven (x : PQ) : ℤ :=
  let fl := x.floorq
  let tw := 2 * (x.num - fl * x.den)
  if tw < (x.den : ℤ) then fl
  else if (x.den : ℤ) < tw then fl + 1
  else if fl % 2 = 0 then fl else fl + 1

/-- Unsigned body of `%.pf` fixed rendering of `q`: integer digits, then a
point and exactly `p` fraction digits when `p > 0`. -/
def fixedBody (p : ℕ) (q : PQ) : List Char :=
  let a := (rhalfEven (q.mulPow10 p)).natAbs
  let ds := natDigitsMSB (a % 10 ^ p)
  natDigitsMSB (a / 10 ^ p) ++
    (if p = 0 then [] else '.' :: (List.replicate (p - ds.length) '0' ++ ds))

/-- Left space padding to a field width. -/
def padCharsLeft (w : ℕ) (cs : List Char) : List Char :=
  List.replicate (w - cs.length) ' ' ++ cs

/-- Right space padding to a field width (the `-` flag). -/
def padCharsRight (w : ℕ) (cs : List Char) : List Char :=
  cs ++ List.replicate (w - cs.length) ' '

/-- Padding of a signed numeric rendering under the `-`/`0` flags. -/
def padNum (minus zero : Bool) (w : ℕ) (sign body : List Char) : List Char :=
  if minus then padCharsRight w (sign ++ body)
  else if zero then sign ++ List.replicate (w - (sign.length + body.length)) '0' ++ body
  else padCharsLeft w (sign ++ body)

/-- The `-` and `0` conversion flags (the only ones the registry uses). -/
def readFlags : List Char → Bool → Bool → Bool × Bool × List Char
  | '-' :: t, _, z => readFlags t true z
  | '0' :: t, m, _ => readFlags t m true
  | cs, m, z => (m, z, cs)

/-- Rendering of one conversion on one value. -/
def renderConv (c : Char) (minus zero : Bool) (w : ℕ) (prec : Option ℕ)
    (v : PyVal) : Except SErr (List Char) :=
  if c = 'd' || c = 'i' then
    match v with
    | .int n => .ok (padNum minus zero w (if n < 0 then ['-'] else []) (natDigitsMSB n.natAbs))
    | .float q =>
        let n := qTrunc q
        .ok (padNum minus zero w (if n < 0 then ['-'] else []) (natDigitsMSB n.natAbs))
    | _ => .error (.typeError "an integer is required")
  else if c = 'f' || c = 'F' then
    match v with
    | .int n =>
        .ok (padNum minus zero w (if n < 0 then ['-'] else []) (fixedBody (prec.getD 6) (PQ.ofInt n)))
    | .float q =>
        .ok (padNum minus zero w (if q.negb then ['-'] else []) (fixedBody (prec.getD 6) q))
    | _ => .error (.typeError "float argument required")
  else if c = 's' then
    match v with
    | .str s =>
        let b := match prec with
          | some p => s.toList.take p
          | none => s.toList
        .ok (if minus then padCharsRight w b else padCharsLeft w b)
    | .int n =>
        let b := intToChars n
        .ok (if minus then padCharsRight w b else padCharsLeft w b)
    | .none =>
        let b := ['N', 'o', 'n', 'e']
        .ok (if minus then padCharsRight w b else padCharsLeft w b)
    | .float _ => .error (.typeError "float repr under s-conversion is not modelled")
  else if c = 'e' || c = 'E' then
    .error (.typeError "scientific rendering is not modelled")
  else .error (.valueError "unsupported format character")

/-- One pass of the `%` operator over the format characters; `v` is the single
value still available (a second conversion raises like Python's not-enough-
arguments TypeError).  Fuel makes the recursion structural; each step consumes
at least one character, so `length + 1` fuel always suffices. -/
def ppfAux : ℕ → List Char → Option PyVal → Except SErr (List Char)
  | 0, _, _ => .error (.valueError "format engine out of fuel")
  | _ + 1, [], _ => .ok []
  | fuel + 1, '%' :: rest, v => do
      let f := readFlags rest false false
      let wds := f.2.2.takeWhile Char.isDigit
      let afterW := f.2.2.dropWhile Char.isDigit
      let pr : Option ℕ × List Char :=
        match afterW with
        | '.' :: t => (some (digitsVal (t.takeWhile Char.isDigit)), t.dropWhile Char.isDigit)
        | _ => (none, afterW)
      match pr.2 with
      | [] => .error (.valueError "incomplete format")
      | c :: rest2 =>
        if c = '%' then do
          let tail ← ppfAux fuel rest2 v
          .ok ('%' :: tail)
        else
          match v with
          | some w0 => do
              let body ← renderConv c f.1 f.2.1 (digitsVal wds) pr.1 w0
              let tail ← ppfAux fuel rest2 none
              .ok (body ++ tail)
          | none => .error (.typeError "not enough arguments for format string")
  | fuel + 1, c :: rest, v => do
      let tail ← ppfAux fuel rest v
      .ok (c :: tail)

/-- Python `fmt % v` for one value. -/
def pyPercentFormat (fmt : String) (v : PyVal) : Except SErr String :=
  (ppfAux (fmt.toList.length + 1) fmt.toList (some v)).map (⟨·⟩)

/-! ## StringConverter (`seisobs/specs.py`) -/

/-- `StringConverter.accepted_chars`. -/
def accepted : List (Char × PyType) :=
  [('f', .float), ('s', .str), ('d', .int), ('e', .float), ('l', .float), ('E', .float)]

/-- Occurrences of a character in a list (`str.count`). -/
def countIn (cs : List Char) (c : Char) : ℕ := (cs.filter (· = c)).length

/-- The embedded `StringConverter` instance: the operational format string
(`l` already replaced by `f`, as `__init__` does), the recognized format
character (`self.char`), the expected runtime type (`self.type`), and the
implied-decimal divisor set by `_get_str2obj`. -/
structure SC where
  fmtstr : String
  ch : Char
  ty : PyType
  divisor : ℕ
deriving DecidableEq, Repr

/-- `StringConverter._check_input`: exactly one percent sign, exactly one
recognized format character, at most one decimal point. -/
def checkInput (fmt : String) : Except SErr Unit :=
  let cs := fmt.toList
  if countIn cs '%' ≠ 1 then
    .error (.valueError "There must be exactly one percent sign in the format string")
  else if !(accepted.any fun p => cs.contains p.1) then
    .error (.valueError "No supported formats found in fmtstr")
  else if (accepted.map fun p => countIn cs p.1).sum > 1 then
    .error (.valueError "Exactly one format character is required in fmtstr")
  else if countIn cs '.' > 1 then
    .error (.valueError "fmtstr can only have one decimal")
  else .ok ()

/-- `StringConverter._get_type`: the unique accepted character present (the
preceding checks guarantee uniqueness, so scan order does not matter). -/
def getTypeChar (cs : List Char) : Option (PyType × Char) :=
  match cs.find? (fun c => accepted.any (·.1 = c)) with
  | some c => (accepted.find? (·.1 = c)).map fun p => (p.2, p.1)
  | none => none

/-- `StringConverter.__init__` together with the divisor computation of
`_get_str2obj`: validate the format string, pick type and char, compute the
implied-decimal divisor from the digits after the point when the char is `l`,
and replace `l` by `f` in the operational format string. -/
def mkStringConverter (fmt : String) : Except SErr SC := do
  let _ ← checkInput fmt
  match getTypeChar fmt.toList with
  | none => .error (.valueError "no format character")
  | some tc =>
    let modstr := (fmt.toList.filter (fun c => c ≠ '%')).filter (fun c => c ≠ tc.2)
    let divisor ←
      if modstr.contains '.' ∧ tc.2 = 'l' then
        match pyInt ⟨(modstr.dropWhile (· ≠ '.')).drop 1⟩ with
        | some k => pure ((10 : ℕ) ^ k.toNat)
        | none => Except.error (.valueError "invalid literal for int")
      else pure 1
    .ok ⟨if tc.2 = 'l' then ⟨fmt.toList.map fun c => if c = 'l' then 'f' else c⟩ else fmt,
         tc.2, tc.1, divisor⟩

/-- `StringConverter.obj2str`: render with the operational format string; for
the implied-decimal char `l`, remove every decimal point from the result.
A TypeError from the format engine is re-raised with the converter's message;
other errors (e.g. an incomplete format) propagate unchanged. -/
def scObj2str (sc : SC) (v : PyVal) : Except SErr String :=
  match pyPercentFormat sc.fmtstr v with
  | .ok s => .ok (if sc.ch = 'l' then ⟨s.toList.filter (fun c => c ≠ '.')⟩ else s)
  | .error (.typeError _) => .error (.typeError "Input type and fmtstr character dont match")
  | .error e => .error e

/-- The string-typed `str2obj` of `_get_str2obj`: format the object, and
return the stripped result only when stripping actually shortens it. -/
def scStr2objStr (sc : SC) (v : PyVal) : Except SErr PyVal := do
  let full ← pyPercentFormat sc.fmtstr v
  let stripped := pyStrip full
  let lenObj ←
    match v with
    | .str s => pure s.toList.length
    | _ => Except.error (.typeError "object has no len")
  if stripped.toList.length < lenObj then pure (.str stripped)
  else pure (.str full)

/-- The numeric `str2obj` of `_get_str2obj`: coerce with `coninst.type` and
divide by the divisor.  On a ValueError (an unparseable string), a float-typed
converter returns `0.0` whatever the slice was (Python evaluates
`type == float or (type == int and blank)`), while an int-typed converter
returns `0` only on a blank slice and otherwise falls through, returning
`None`. -/
def scStr2objNum (sc : SC) (v : PyVal) : Except SErr PyVal :=
  match v, sc.ty with
  | .str s, .float =>
      match pyFloat s with
      | some q => .ok (.float (q.divN sc.divisor))
      | none => .ok (.float (PQ.ofInt 0))
  | .str s, .int =>
      match pyInt s with
      | some n => .ok (.int n)
      | none => if pyStrip s = "" then .ok (.int 0) else .ok .none
  | .float q, .float => .ok (.float (q.divN sc.divisor))
  | .float q, .int => .ok (.int (qTrunc q))
  | .int n, .float => .ok (.float ((PQ.ofInt n).divN sc.divisor))
  | .int n, .int => .ok (.int n)
  | .none, _ => .error (.typeError "str2obj takes exactly one string")
  | _, .str => .error (.typeError "unreachable: numeric str2obj of a string converter")

/-- `str2obj` as built by `_get_str2obj`, dispatching on the converter type. -/
def scStr2obj (sc : SC) (v : PyVal) : Except SErr PyVal :=
  if sc.ty = .str then scStr2objStr sc v else scStr2objNum sc v

/-- `StringConverter.__call__`: a string argument goes to `str2obj` when the
type is `str`; an argument of exactly the expected numeric type goes to
`obj2str`; everything else goes to `str2obj` (Python's isinstance dispatch). -/
def scCall (sc : SC) (v : PyVal) : Except SErr PyVal :=
  match v with
  | .str _ => scStr2obj sc v
  | .int _ => if sc.ty = .int then (scObj2str sc v).map .str else scStr2obj sc v
  | .float _ => if sc.ty = .float then (scObj2str sc v).map .str else scStr2obj sc v
  | .none => scStr2obj sc v

/-- Round-trip of one float-typed format code at precision `p`: rendering the
exactly representable value `n / 10^p` through the converter and converting the
rendered text back recovers the value. -/
def FloatRT (fmt : String) (p : ℕ) : Prop :=
  ∀ sc : SC, mkStringConverter fmt = .ok sc →
    ∀ n : ℤ, ∃ (s : String) (r : PQ),
      scCall sc (.float ⟨n, 10 ^ p⟩) = .ok (.str s) ∧
      scCall sc (.str s) = .ok (.float r) ∧
      r.val = PQ.val ⟨n, 10 ^ p⟩

/-- Round-trip of one int-typed format code on every integer. -/
def IntRT (fmt : String) : Prop :=
  ∀ sc : SC, mkStringConverter fmt = .ok sc →
    ∀ n : ℤ, ∃ s : String,
      scCall sc (.int n) = .ok (.str s) ∧ scCall sc (.str s) = .ok (.int n)

/-- Raised-rather-than-returned, as a Boolean. -/
def isErr {α : Type} : Except SErr α → Bool
  | .error _ => true
  | .ok _ => false

/-! ## Decoded records (pandas Series with colname index) -/

/-- A decoded record: the ordered field-name/value pairs of the pandas Series
built by `Sline._load_sline`. -/
abbrev Series := List (String × PyVal)

/-- Field lookup (`ser[name]` / `ser.name`). -/
def sget (ser : Series) (name : String) : Option PyVal :=
  (ser.find? (·.1 = name)).map (·.2)

/-- Field assignment (`ser[name] = v`): overwrite every entry of that name
(pandas semantics with a duplicated index label), appending when absent. -/
def sset (ser : Series) (name : String) (v : PyVal) : Series :=
  if (ser.find? (·.1 = name)).isSome then
    ser.map fun p => if p.1 = name then (p.1, v) else p
  else ser ++ [(name, v)]

/-- `set(names).issubset(ser.index)`. -/
def hasAll (ser : Series) (names : List String) : Bool :=
  names.all fun n => (sget ser n).isSome

/-! ## Python 2 comparison and coercion helpers

Python 2 orders values of different types by type name: `None` is smaller than
every number, and a string is larger than every number, so `None < 0` is true
and `"x" > 360` is true.  The validators below rely on exactly this. -/

/-- Python 2 `v < b` for an integer-valued numeric literal. -/
def pyLtQ : PyVal → ℤ → Bool
  | .int n, b => n < b
  | .float x, b => x.ltb (PQ.ofInt b)
  | .none, _ => true
  | .str _, _ => false

/-- Python 2 `v > b` for an integer-valued numeric literal. -/
def pyGtQ : PyVal → ℤ → Bool
  | .int n, b => b < n
  | .float x, b => (PQ.ofInt b).ltb x
  | .none, _ => false
  | .str _, _ => true

/-- Python `abs(v)` (TypeError on non-numbers). -/
def pyAbs : PyVal → Except SErr PQ
  | .int n => .ok (PQ.ofInt |n|)
  | .float x => .ok x.absq
  | _ => .error (.typeError "bad operand type for abs")

/-- Python `int(v)` (ValueError on a bad string, TypeError on None). -/
def pyIntCast : PyVal → Except SErr ℤ
  | .int n => .ok n
  | .float q => .ok (qTrunc q)
  | .str s =>
      match pyInt s with
      | some n => .ok n
      | none => .error (.valueError "invalid literal for int")
  | .none => .error (.typeError "int argument must be a string or a number")

/-- A datetime attribute assignment (`utc.year = v` etc.) accepts only an
integer; anything else raises TypeError. -/
def pyAsDatetimeInt : PyVal → Except SErr ℤ
  | .int n => .ok n
  | _ => .error (.typeError "an integer is required")

/-! ## Calendar arithmetic (the external datetime/UTCDateTime contract) -/

def isLeap (y : ℤ) : Bool := (y % 4 = 0 && y % 100 ≠ 0) || y % 400 = 0

def daysInMonth (y m : ℤ) : ℤ :=
  if m = 2 then (if isLeap y then 29 else 28)
  else if m = 4 || m = 6 || m = 9 || m = 11 then 30
  else 31

/-! ## Per-type validators (`seisobs/specs.py`) -/

/-- `validate_utc`: check field presence, then emulate the sequential datetime
attribute assignments of the source on the 2015-01-15 default.  The
intermediate states never reject a value the final state accepts (day 15 fits
every month and months 1..12 fit any year), so date validity collapses to the
standard calendar check.  The hour is only range-checked 0..48, never
assigned; ValueError and TypeError inside the block are re-raised as the
source's wrapped ValueError. -/
def validate_utc (ser : Series) (ymd hms : Bool) : Except SErr Unit := do
  if ymd ∧ ¬ hasAll ser ["year", "month", "day"] then
    throw (SErr.valueError "Series does not have all year month day")
  if hms ∧ ¬ hasAll ser ["hour", "minute", "second"] then
    throw (SErr.valueError "Series does not have all hour minute second")
  let inner : Except SErr Unit := do
    if ymd then
      let y ← pyAsDatetimeInt ((sget ser "year").getD .none)
      if y < 1 ∨ 9999 < y then throw (SErr.valueError "year is out of range")
      let m ← pyAsDatetimeInt ((sget ser "month").getD .none)
      if m < 1 ∨ 12 < m then throw (SErr.valueError "month must be in 1..12")
      let d ← pyAsDatetimeInt ((sget ser "day").getD .none)
      if d < 1 ∨ daysInMonth y m < d then throw (SErr.valueError "day is out of range")
    if hms then
      let hourV := (sget ser "hour").getD .none
      if pyLtQ hourV 0 ∨ pyGtQ hourV 48 then
        throw (SErr.valueError "Hour must be between 0 and 48")
      let mi ← pyAsDatetimeInt ((sget ser "minute").getD .none)
      if mi < 0 ∨ 59 < mi then throw (SErr.valueError "minute must be in 0..59")
      let sec ← pyIntCast ((sget ser "second").getD .none)
      if sec < 0 ∨ 59 < sec then throw (SErr.valueError "second must be in 0..59")
  match inner with
  | .ok _ => pure ()
  | .error (.valueError m) =>
      throw (SErr.valueError ("Invalid time value found in series, " ++ m))
  | .error (.typeError m) =>
      throw (SErr.valueError ("Invalid time value found in series, " ++ m))
  | .error e => throw e

/-- `validate_lat_lon`. -/
def validate_lat_lon (ser : Series) : Except SErr Unit := do
  if ¬ hasAll ser ["latitude", "longitude"] then
    throw (SErr.valueError "Series does not have all latitude longitude")
  let la ← pyAbs ((sget ser "latitude").getD .none)
  if (PQ.ofInt 90).ltb la then throw (SErr.valueError "invalid latitude value")
  let lo ← pyAbs ((sget ser "longitude").getD .none)
  if (PQ.ofInt 180).ltb lo then throw (SErr.valueError "invalid longitude value")

/-- `validate_mag` (`not ser.magnitude < 10.0` under Python 2 ordering). -/
def validate_mag (ser : Series) : Except SErr Unit := do
  if (sget ser "magnitude").isNone then
    throw (SErr.valueError "Series does not have magnitude in its index")
  if ¬ pyLtQ ((sget ser "magnitude").getD .none) 10 then
    throw (SErr.valueError "mag is probably wrong")

/-- The sequentially probed filler names `bla1` .. `bla11`. -/
def blankNames : List String :=
  ["bla1", "bla2", "bla3", "bla4", "bla5", "bla6", "bla7", "bla8", "bla9",
   "bla10", "bla11"]

/-- `validate_blanks` body: stop at the first absent filler name; a present
filler must strip to empty. -/
def validate_blanks_go (ser : Series) : List String → Except SErr Unit
  | [] => pure ()
  | b :: rest =>
      match sget ser b with
      | some (.str s) =>
          if (pyStrip s).toList.length > 0 then
            throw (SErr.valueError "content was found in blank string on series")
          else validate_blanks_go ser rest
      | some _ => throw (SErr.typeError "strip on a non-string filler")
      | none => pure ()

/-- `validate_blanks`. -/
def validate_blanks (ser : Series) : Except SErr Unit :=
  validate_blanks_go ser blankNames

/-- `validate_year`. -/
def validate_year (ser : Series) : Except SErr Unit := do
  let y ← pyIntCast ((sget ser "year").getD .none)
  if y < 1910 then throw (SErr.valueError "Year reported before 1910, not allowed")

/-! ## The line-type column registry (`specs.specs`) -/

/-- A line-type spec: column ranges, field names, format codes. -/
structure Spec where
  colspec : List (ℕ × ℕ)
  colname : List String
  colformat : List String

def cs1 : List (ℕ × ℕ) :=
  [(0,1), (1,5), (5,6), (6,8), (8,10), (10,11), (11,13), (13,15), (15,16),
   (16,20), (20,21), (21,22), (22,23), (23,30), (30,38), (38,43), (43,44),
   (44,45), (45,48), (48,51), (51,55), (55,59), (59,60), (60,63), (63,67),
   (67,68), (68,71), (71,75), (75,76), (76,79), (79,80)]

def cn1 : List String :=
  ["bla1", "year", "bla2", "month", "day", "fixotime", "hour", "minute",
   "bla3", "second", "mod", "distancecode", "eventid", "latitude", "longitude",
   "depth", "depthcode", "locindicator", "hypagency", "numstations", "rms",
   "magnitude", "magtype", "magagency", "magnitude2", "mag2type", "mag2agency",
   "magnitude3", "mag3type", "mag3agency", "linetype"]

def cf1 : List String :=
  ["%-s", "%4d", "%s", "%2d", "%2d", "%1s", "%2d", "%2d", "%s", "%4.1f", "%1s",
   "%1s", "%1s", "%7.3f", "%8.3f", "%5.1f", "%1s", "%1s", "%-3s", "3d%", "%4.2f",
   "%4.1f", "%1s", "%3s", "%4.1f", "%1s", "%3s", "%4.1f", "%1s", "%3s", "%1s"]

def cs3 : List (ℕ × ℕ) := [(0,79), (79,80)]
def cn3 : List String := ["comment", "linetype"]
def cf3 : List String := ["%s", "%s"]

def cs4 : List (ℕ × ℕ) :=
  [(0,1), (1,6), (6,7), (7,8), (8,9), (9,10), (10,14), (14,15), (15,16),
   (16,17), (17,18), (18,20), (20,22), (22,28), (28,29), (29,33), (33,40),
   (40,41), (41,45), (45,46), (46,51), (51,52), (52,56), (56,60), (60,63),
   (63,68), (68,70), (70,75), (75,76), (76,79), (79,80)]

def cn4 : List String :=
  ["bla1", "station", "instrumenttype", "component", "bla2", "qualityindicator",
   "phaseid", "weight", "autoflag", "firstmotion", "bla3", "hour", "minute",
   "second", "bla4", "duration", "amplitude", "bla5", "period", "bla6", "backazimuth",
   "bla7", "phasevelocity", "incidenceangle", "azimuthresid", "traveltimeresid",
   "weight2", "distance", "bla8", "azimuth", "linetype"]

def cf4 : List String :=
  ["%s", "%-5s", "%s", "%s", "%s", "%s", "%4s", "%d", "%s", "%s", "%s", "%2d",
   "%2d", "%6.2f", "%s", "%4d", "%f7.1", "%s", "%4.2f", "%s", "%5.1f", "%s",
   "%4.0f", "%4.0f", "%3d", "%5.1f", "%2d", "%5.0f", "%s", "%3d", "%s"]

def cse : List (ℕ × ℕ) :=
  [(0,1), (1,5), (5,8), (14,20), (24,30), (30,32), (32,38), (38,43), (43,55),
   (55,67), (68,79), (79,80)]

def cne : List String :=
  ["bla1", "textgap", "azgap", "otimeerror", "latitudeerror", "bla2",
   "longitudeerror", "deptherror", "covariancexy", "covariancexz",
   "covarianceyz", "linetype"]

def cfe : List String :=
  ["%s", "%4s", "%3d", "%6.2f", "%6.1f", "%1s", "%6.1f", "%5.1f", "%12.4E",
   "%12.4E", "%12.4E", "%1s"]

def csh : List (ℕ × ℕ) :=
  [(0,1), (1,5), (5,6), (6,8), (8,10), (10,11), (11,13), (13,15), (15,16),
   (16,22), (22,23), (23,32), (32,33), (33,43), (43,44), (44,52), (52,53),
   (53,59), (59,79), (79,80)]

def cnh : List String :=
  ["bla1", "year", "bla2", "month", "day", "fixotime", "hour", "minute",
   "bla2", "second", "bla3", "latitude", "bla4", "longitude", "bla5", "depth",
   "bla6", "rms", "bla7", "linetype"]

def cfh : List String :=
  ["%-s", "%4d", "%s", "%2d", "%2d", "%1s", "%2d", "%2d", "%s", "%6.3f",
   "%s", "%9.5f", "%s", "%10.5f", "%s", "%8.3f", "%s", "%6.3f", "%s", "%s"]

def csi : List (ℕ × ℕ) :=
  [(0,1), (1,8), (8,11), (11,12), (12,26), (26,27), (27,30), (30,35), (35,42),
   (42,56), (56,57), (57,60), (60,74), (74,75), (75,77), (77,79), (79,80)]

def cni : List String :=
  ["bla1", "actionhelp", "action", "bla2", "actiondatetime", "bla3",
   "textophelpoperator", "operator", "texthelpstatus",
   "statusflag", "bla5", "IDtext", "ID", "newflag", "lock",
   "bla6", "linetype"]

def cfi : List String :=
  ["%s", "%-7s", "%-3s", "%s", "%-14s", "%1s", "%3s", "%5s", "%7s", "%13s",
   "%1s", "%3s", "%14s", "%1s", "%1s", "%3s", "%1s"]

def cs0 : List (ℕ × ℕ) := [(0,78), (78,79)]
def cn0 : List String := ["bla1", "linetype"]
def cf0 : List String := ["%-s", "%1s"]

def csf : List (ℕ × ℕ) :=
  [(0,10), (10,20), (20,30), (30,35), (35,40), (40,45), (45,50), (50,55),
   (55,60), (60,62), (62,63), (63,65), (66,69), (70,77), (77,78), (78,79),
   (79,80)]

def cnf : List String :=
  ["strike", "dip", "rake", "strikeerror", "diperror", "rakeerror", "fiterror",
   "stationdistratio", "amplituderatio", "numbadpolarity", "unused",
   "numbadamplitudes", "agency", "program", "quality", "bla2", "linetype"]

def cff : List String :=
  ["%10.0f", "%10.0f", "%10.0f", "%5.1f", "%5.1f", "%5.1f", "%5.1f", "%5.1f",
   "%5.1f", "%2d", "%s", "%2d", "%-3s", "%-7s", "%1s", "%1s", "%1s"]

def spec1 : Spec := ⟨cs1, cn1, cf1⟩
def spec3 : Spec := ⟨cs3, cn3, cf3⟩
def spec4 : Spec := ⟨cs4, cn4, cf4⟩
def specE : Spec := ⟨cse, cne, cfe⟩
def specH : Spec := ⟨csh, cnh, cfh⟩
def specI : Spec := ⟨csi, cni, cfi⟩
def spec0 : Spec := ⟨cs0, cn0, cf0⟩
def specF : Spec := ⟨csf, cnf, cff⟩

/-- The unused/passthrough tags that share the permissive comment spec. -/
def commentTags : List String := ["3", "2", "5", "6", "7", "8", "9", "A"]

/-- The `specs` registry dictionary. -/
def specsGet (lt : String) : Option Spec :=
  if lt = "1" then some spec1
  else if commentTags.contains lt then some spec3
  else if lt = "4" then some spec4
  else if lt = "E" then some specE
  else if lt = "H" then some specH
  else if lt = "I" then some specI
  else if lt = "0" then some spec0
  else if lt = "F" then some specF
  else none

/-- `validate1` (also bound as `validateh`). -/
def validate1 (ser : Series) : Except SErr Unit := do
  if ¬ hasAll ser cn1 then
    throw (SErr.valueError "series does not have correct indicies")
  validate_mag ser
  validate_lat_lon ser
  validate_utc ser true true
  validate_blanks ser
  validate_year ser

/-- `validate3`: nothing to see here folks. -/
def validate3 (_ser : Series) : Except SErr Unit := pure ()

/-- `validate4`. -/
def validate4 (ser : Series) : Except SErr Unit := do
  if ¬ hasAll ser cn4 then
    throw (SErr.valueError "series does not have correct indicies")
  let az := (sget ser "azimuth").getD .none
  if pyLtQ az 0 ∨ pyGtQ az 360 then
    throw (SErr.valueError "invalid azimuth found in series")
  match sget ser "station" with
  | some (.str s) =>
      if (pyStrip s).toList.length = 0 then
        throw (SErr.valueError "No station field found in series")
  | some _ => throw (SErr.typeError "strip on a non-string station")
  | none => throw (SErr.typeError "no station entry")
  match sget ser "component" with
  | some (.str s) =>
      if (pyStrip s).toList.length = 0 then
        throw (SErr.valueError "No component field found in series")
  | some _ => throw (SErr.typeError "strip on a non-string component")
  | none => throw (SErr.typeError "no component entry")
  validate_utc ser false true
  validate_blanks ser

/-- `validatee`. -/
def validatee (ser : Series) : Except SErr Unit := do
  if ¬ hasAll ser cne then
    throw (SErr.valueError "series does not have correct indicies")

/-- Modelled external interface: the obspy UTCDateTime constructor applied to
the ID field of an I line accepts a compact all-digit yyyymmddhhmmss timestamp
whose fields form a valid calendar time, and raises on anything else. -/
def obspyUTCParseOk (v : PyVal) : Bool :=
  match v with
  | .str s =>
      let cs := s.toList
      cs.length = 14 && cs.all Char.isDigit &&
        (let y : ℤ := (digitsVal (cs.take 4) : ℤ)
         let mo : ℤ := (digitsVal ((cs.drop 4).take 2) : ℤ)
         let d : ℤ := (digitsVal ((cs.drop 6).take 2) : ℤ)
         let h : ℤ := (digitsVal ((cs.drop 8).take 2) : ℤ)
         let mi : ℤ := (digitsVal ((cs.drop 10).take 2) : ℤ)
         let sec : ℤ := (digitsVal ((cs.drop 12).take 2) : ℤ)
         decide (1 ≤ y ∧ y ≤ 9999 ∧ 1 ≤ mo ∧ mo ≤ 12 ∧ 1 ≤ d ∧
           d ≤ daysInMonth y mo ∧ h ≤ 23 ∧ mi ≤ 59 ∧ sec ≤ 59))
  | _ => false

/-- `validatei`. -/
def validatei (ser : Series) : Except SErr Unit := do
  validate_blanks ser
  if ¬ obspyUTCParseOk ((sget ser "ID").getD .none) then
    throw (SErr.valueError "The following ID found in line is not a utcdatetime")

/-- `validate0`. -/
def validate0 (ser : Series) : Except SErr Unit := validate_blanks ser

/-- `validatef`: only the strike check can raise; the dip and rake branches of
the source only build a message and never raise it. -/
def validatef (ser : Series) : Except SErr Unit := do
  validate_blanks ser
  let st := (sget ser "strike").getD .none
  if pyGtQ st 360 ∨ pyLtQ st 0 then
    throw (SErr.valueError "invalid strike")

/-- `specs[lt].validate`. -/
def specValidate (lt : String) (ser : Series) : Except SErr Unit :=
  if lt = "1" then validate1 ser
  else if commentTags.contains lt then validate3 ser
  else if lt = "4" then validate4 ser
  else if lt = "E" then validatee ser
  else if lt = "H" then validate1 ser
  else if lt = "I" then validatei ser
  else if lt = "0" then validate0 ser
  else if lt = "F" then validatef ser
  else .error (.keyError "not a supported line type")

/-! ## Line decoding (`core.Sline`) -/

/-- Field-by-field decoding loop of `_load_sline`: slice, fetch the cached
converter, convert, assign. -/
def load_fields (sline : String) :
    List ((ℕ × ℕ) × String × String) → Series → Except SErr Series
  | [], acc => .ok acc
  | (sp, na, fo) :: rest, acc => do
      let sc ← mkStringConverter fo
      let v ← scCall sc (.str (pySlice sline sp.1 sp.2))
      load_fields sline rest (sset acc na v)

/-- `Sline._load_sline`: look the spec up (KeyError when the tag is not
registered) and convert every column. -/
def load_sline (sline : String) (ltype : String) : Except SErr Series :=
  match specsGet ltype with
  | none => .error (.keyError "is not a supported line type")
  | some spec =>
      load_fields sline (spec.colspec.zip (spec.colname.zip spec.colformat))
        (spec.colname.map fun n => (n, PyVal.none))

/-- `Sline._classify_line`: exactly 80 characters; a blank column 80 means
type 4; a whitespace-only line means type 0; otherwise the column-80
character is the tag. -/
def classify_line (sline : String) : Except SErr String :=
  if sline.toList.length ≠ 80 then
    .error (.valueError "the following line did not have 80 characters")
  else if sline.toList.get? 79 = some ' ' then .ok "4"
  else if (pyStrip sline).toList.length < 1 then .ok "0"
  else
    match sline.toList.get? 79 with
    | some c => .ok ⟨[c]⟩
    | none => .error (.valueError "unreachable: length is 80")

/-- The try-block body of the linetype-4 branch of `read_line`: load as 4 and
run the type-4 validator. -/
def tryLoadValidate4 (rs : String) : Except SErr Series := do
  let s ← load_sline rs "4"
  let _ ← validate4 s
  pure s

/-- The except-handler of the 4 branch of `read_line`: reclassify as line
type 1 — load as 1, overwrite the linetype field, and (when validation is
requested) run the type-1 validator, whose failure propagates to the
caller. -/
def fallback1 (rs : String) (validate : Bool) : Except SErr (String × Series) := do
  let s ← load_sline rs "1"
  let s1 := sset s "linetype" (.str "1")
  if validate then
    let _ ← specValidate "1" s1
    pure ("1", s1)
  else pure ("1", s1)

/-- `Sline.read_line`: rstrip the line terminator, classify, decode.  A line
classified 4 is loaded and validated inside a try whose ValueError handler
falls back to line type 1; the final validation step runs the (possibly
reassigned) type's validator.  The result is the pair
(`self.slinetype`, `self.sseries`). -/
def read_line (sline0 : String) (validate : Bool) : Except SErr (String × Series) := do
  let rs := pyRstripNL sline0
  let lt ← classify_line rs
  if lt = "4" then
    match tryLoadValidate4 rs with
    | .ok s =>
        let s1 := sset s "linetype" (.str "4")
        if validate then do
          let _ ← specValidate "4" s1
          pure ("4", s1)
        else pure ("4", s1)
    | .error (.valueError _) => fallback1 rs validate
    | .error e => throw e
  else do
    let s ← load_sline rs lt
    if validate then do
      let _ ← specValidate lt s
      pure (lt, s)
    else pure (lt, s)

/-! ## UTCDateTime arithmetic (external obspy contract)

Timestamps are exact seconds since the epoch; the civil-calendar conversions
are the standard era-based algorithms. -/

def daysFromCivil (y m d : ℤ) : ℤ :=
  let y1 := y - (if m ≤ 2 then 1 else 0)
  let era := y1.fdiv 400
  let yoe := y1 - era * 400
  let doy := (153 * (m + (if 2 < m then -3 else 9)) + 2) / 5 + d - 1
  let doe := yoe * 365 + yoe / 4 - yoe / 100 + doy
  era * 146097 + doe - 719468

def civilFromDays (z0 : ℤ) : ℤ × ℤ × ℤ :=
  let z := z0 + 719468
  let era := z.fdiv 146097
  let doe := z - era * 146097
  let yoe := (doe - doe / 1460 + doe / 36524 - doe / 146096) / 365
  let y := yoe + era * 400
  let doy := doe - (365 * yoe + yoe / 4 - yoe / 100)
  let mp := (5 * doy + 2) / 153
  let d := doy - (153 * mp + 2) / 5 + 1
  let m := mp + (if mp < 10 then 3 else -9)
  (y + (if m ≤ 2 then 1 else 0), m, d)

/-- `obspy.UTCDateTime(year=.., month=.., day=.., hour=.., minute=..)`. -/
def utcOfYMDHM (y m d h mi : ℤ) : PQ :=
  PQ.ofInt ((daysFromCivil y m d) * 86400 + h * 3600 + mi * 60)

/-- `(utc.year, utc.month, utc.day)`: floor-divide the epoch seconds into a
civil day number and convert. -/
def ymdOfUtc (t : PQ) : ℤ × ℤ × ℤ :=
  civilFromDays (t.num.fdiv ((t.den : ℤ) * 86400))

/-- `utc.day`. -/
def dayOfUtc (t : PQ) : ℤ := (ymdOfUtc t).2.2

/-! ## Event assembly (`core.Seisob`) -/

/-- `Seisob._get_utc`: build a UTCDateTime from a 1-line row's fields and add
the seconds; the constructor validates its calendar arguments. -/
def get_utc (row : Series) : Except SErr PQ := do
  let ye ← pyIntCast ((sget row "year").getD .none)
  let mo ← pyIntCast ((sget row "month").getD .none)
  let da ← pyIntCast ((sget row "day").getD .none)
  let ho ← pyIntCast ((sget row "hour").getD .none)
  let mi ← pyIntCast ((sget row "minute").getD .none)
  if ye < 1 ∨ 9999 < ye ∨ mo < 1 ∨ 12 < mo ∨ da < 1 ∨ daysInMonth ye mo < da ∨
      ho < 0 ∨ 23 < ho ∨ mi < 0 ∨ 59 < mi then
    throw (SErr.valueError "invalid UTCDateTime arguments")
  match (sget row "second").getD .none with
  | .float q => pure ((utcOfYMDHM ye mo da ho mi).add q)
  | .int n => pure ((utcOfYMDHM ye mo da ho mi).add (PQ.ofInt n))
  | _ => throw (SErr.typeError "unsupported operand type for utc addition")

/-- `Seisob._get_pick_time`: anchor on the first origin's civil date; when the
pick hour is 24 or more, subtract 24 and take the civil date one day later;
rebuild a UTCDateTime and add the seconds.  (The source's `_get_y_m_d` is
`ymdOfUtc`; the anchor date coming from a valid UTCDateTime is always a valid
calendar date.) -/
def get_pick_time (ser : Series) (utc1 : PQ) : Except SErr PQ := do
  let hour0 ← pyIntCast ((sget ser "hour").getD .none)
  let minute ← pyIntCast ((sget ser "minute").getD .none)
  let hy := if 24 ≤ hour0 then (hour0 - 24, ymdOfUtc (utc1.add (PQ.ofInt (3600 * 24))))
            else (hour0, ymdOfUtc utc1)
  if hy.1 < 0 ∨ 23 < hy.1 ∨ minute < 0 ∨ 59 < minute then
    throw (SErr.valueError "invalid UTCDateTime arguments")
  match (sget ser "second").getD .none with
  | .float q => pure ((utcOfYMDHM hy.2.1 hy.2.2.1 hy.2.2.2 hy.1 minute).add q)
  | .int n => pure ((utcOfYMDHM hy.2.1 hy.2.2.1 hy.2.2.2 hy.1 minute).add (PQ.ofInt n))
  | _ => throw (SErr.typeError "unsupported operand type for utc addition")

/-- The evaluation-mode expression of `Seisob._get_pick`:
manual exactly when the decoded autoflag field equals a one-space string. -/
def pick_evaluation_mode (ser : Series) : String :=
  if (sget ser "autoflag").getD .none = .str " " then "manual" else "automatic"

/-! ## Magnitude extraction and the default-elision rule -/

/-- Python truthiness of a field value. -/
def pyTruthy : PyVal → Bool
  | .int n => n ≠ 0
  | .float q => !(q.eqb (PQ.ofInt 0))
  | .str s => s.toList.length ≠ 0
  | .none => false

/-- Python `v == b` against an integer-valued numeric literal (False for None
and strings). -/
def pyEqQ : PyVal → ℤ → Bool
  | .int n, b => n = b
  | .float x, b => x.eqb (PQ.ofInt b)
  | _, _ => false

/-- `str.upper` on a field (AttributeError on non-strings). -/
def pyUpperV : PyVal → Except SErr String
  | .str s => .ok (pyUpper s)
  | _ => .error (.typeError "upper on a non-string")

/-- `specs.mag_key.get(code, default M)`. -/
def mag_key_get (s : String) : String :=
  if s = "L" then "ML" else if s = "B" then "MB" else if s = "S" then "MS"
  else if s = "W" then "MW" else if s = "C" then "MC" else if s = "M" then "M"
  else "M"

/-- obspy CreationInfo, restricted to the field the claims need. -/
structure CreationInfo where
  agency_id : Option PyVal
deriving DecidableEq, Repr

/-- obspy Magnitude, restricted to the fields `_get_magnitudes` sets. -/
structure Magnitude where
  mag : PyVal
  magnitude_type : String
  creation_info : CreationInfo
deriving DecidableEq, Repr

/-- `Seisob._creation_info_generic`: the agency is recorded only when truthy;
otherwise the obspy default `None` remains. -/
def creation_info_generic (agency : PyVal) : CreationInfo :=
  ⟨if pyTruthy agency then some agency else none⟩

/-- `Seisob._create_magnitude`. -/
def create_magnitude (mag : PyVal) (mag_type : String) (mag_agency : PyVal) :
    Magnitude :=
  ⟨mag, mag_type, creation_info_generic mag_agency⟩

/-- `Seisob._append_mag_if_not_default`: drop the magnitude exactly when its
value equals 0.0, its agency is None, and its type code upper-cases to M. -/
def append_mag_if_not_default (mags : List Magnitude) (mag : Magnitude) :
    List Magnitude :=
  let con1 := pyEqQ mag.mag 0
  let con2 := mag.creation_info.agency_id = Option.none
  let con3 := pyUpper mag.magnitude_type = "M"
  if ¬ (con1 ∧ con2 ∧ con3) then mags ++ [mag] else mags

/-- One magnitude triple of a 1-line row, as `_get_magnitudes` builds it. -/
def magTripleOf (row : Series) (magName typeName agencyName : String) :
    Except SErr Magnitude := do
  let mtU ← pyUpperV ((sget row typeName).getD .none)
  pure (create_magnitude ((sget row magName).getD .none) (mag_key_get mtU)
    ((sget row agencyName).getD .none))

/-- The loop body of `Seisob._get_magnitudes` for one 1-line row. -/
def get_magnitudes_row (mags : List Magnitude) (row : Series) :
    Except SErr (List Magnitude) := do
  let m1 ← magTripleOf row "magnitude" "magtype" "magagency"
  let mags1 := append_mag_if_not_default mags m1
  let m2 ← magTripleOf row "magnitude2" "mag2type" "mag2agency"
  let mags2 := append_mag_if_not_default mags1 m2
  let m3 ← magTripleOf row "magnitude3" "mag3type" "mag3agency"
  pure (append_mag_if_not_default mags2 m3)

/-- `Seisob._get_magnitudes` over the 1-line rows of one file. -/
def get_magnitudes (rows : List Series) : Except SErr (List Magnitude) :=
  rows.foldlM get_magnitudes_row []

/-! ## NSLC identifier resolution (`core` misc functions and `_get_nslc`) -/

/-- The station/component pair a 4-line supplies. -/
structure Ser4F where
  station : String
  component : String
deriving DecidableEq, Repr

/-- One row of the comment-derived station/channel table (`_make_scnl_df`). -/
structure ScnlRow where
  station : String
  channel : String
  network : String
  location : String
deriving DecidableEq, Repr

/-- One row of the inventory-derived lookup table (`wid_df`). -/
structure NslcRow where
  network : String
  station : String
  location : String
  channel : String
deriving DecidableEq, Repr

/-- One trace of the associated waveform stream (its stats). -/
structure Trace where
  network : String
  station : String
  location : String
  channel : String
deriving DecidableEq, Repr

/-- The kwargs dictionary `_nslc_method_prep` assembles: the three optional
lookup sources, the default network, and the default channel two-letter code
(source name: channel underscore pre-fix). -/
structure NslcDict where
  scnldf : Option (List ScnlRow)
  nslcdf : Option (List NslcRow)
  st : Option (List Trace)
  network : String
  channel_pre : String
  ser4 : Ser4F
deriving DecidableEq, Repr

/-- `get_nslc_from_comment`: station equality and channel-contains-component;
no match raises ValueError; several matches warn and use the first. -/
def get_nslc_from_comment (ser4 : Ser4F) (scnldf : List ScnlRow) :
    Except SErr (String × String × String × String) :=
  let tdf := scnldf.filter fun r =>
    r.station = ser4.station && pyContains r.channel ser4.component
  match tdf with
  | [] => .error (.valueError "No matching scnl found in comments")
  | r :: _ => .ok (r.network, r.station, r.location, r.channel)

/-- `get_nslc_from_inventory`: the source filters on station equality and
station-contains-station — the component plays no part here. -/
def get_nslc_from_inventory (ser4 : Ser4F) (nslcdf : List NslcRow) :
    Except SErr (String × String × String × String) :=
  let tdf := nslcdf.filter fun r =>
    r.station = ser4.station && pyContains r.station ser4.station
  match tdf with
  | [] => .error (.valueError "No matching scnl found")
  | r :: _ => .ok (r.network, r.station, r.location, r.channel)

/-- Modelled external interface (obspy `Stream.select`): keep the traces whose
station matches case-insensitively and whose channel ends with the requested
component, case-insensitively. -/
def selectMatch (tr : Trace) (station comp : String) : Bool :=
  pyUpper tr.station = pyUpper station &&
    (pyUpper comp).toList.isSuffixOf (pyUpper tr.channel).toList

/-- `get_nscl_from_waveform`: select by station and component; no match raises
ValueError; otherwise the source takes the first trace of the ORIGINAL stream
(`st[0]`), not of the selection. -/
def get_nscl_from_waveform (ser4 : Ser4F) (st : List Trace) :
    Except SErr (String × String × String × String) :=
  let st1 := st.filter fun tr => selectMatch tr ser4.station ser4.component
  if st1.length < 1 then .error (.valueError "No channel found in stream")
  else
    match st with
    | tr :: _ => .ok (tr.network, tr.station, tr.location, tr.channel)
    | [] => .error (.valueError "unreachable: the selection was nonempty")

/-- `get_nscl_from_thin_air`: default network, raw station, blank location,
default channel code glued to the component.  It cannot fail. -/
def get_nscl_from_thin_air (network chpre : String) (ser4 : Ser4F) :
    String × String × String × String :=
  (network, ser4.station, " ", chpre ++ ser4.component)

/-- `Seisob._get_nslc`: try comments, then inventory, then waveform — each
only when its source is available, each ValueError recovered by falling
through — and finally synthesize. -/
def get_nslc (dic : NslcDict) : String × String × String × String :=
  let step3 : String × String × String × String :=
    match dic.st with
    | some st =>
        match get_nscl_from_waveform dic.ser4 st with
        | .ok q => q
        | .error _ => get_nscl_from_thin_air dic.network dic.channel_pre dic.ser4
    | none => get_nscl_from_thin_air dic.network dic.channel_pre dic.ser4
  let step2 : String × String × String × String :=
    match dic.nslcdf with
    | some df =>
        match get_nslc_from_inventory dic.ser4 df with
        | .ok q => q
        | .error _ => step3
    | none => step3
  match dic.scnldf with
  | some df =>
      match get_nslc_from_comment dic.ser4 df with
      | .ok q => q
      | .error _ => step2
  | none => step2

/-! ## Concrete inputs used by the claims

`g1line` and `g4line` are the multi-day test fixture lines of the repository
(a 1-line dated 1996-10-21 23:59 59.0 and a 4-line with hour 24, minute 01);
the remaining values are small concrete records for witnesses. -/

def g1line : String :=
  " 1996 1021 2359 59.0 L  61.689   3.259 15.0  TES 35 3.0 3.3LTES 3.0CTES 3.2LNAO1"

def g4line : String :=
  " FOO  SZ IS       2401 10.01                              70   -1.2710 95.1  95 "

/-- An 80-column line of spaces. -/
def blank80 : String := ⟨List.replicate 80 ' '⟩

/-- An 80-column line of tab characters. -/
def tabs80 : String := ⟨List.replicate 80 '\t'⟩

/-- 79 spaces with the literal tag character 0 in column 80. -/
def zeroline : String := ⟨List.replicate 79 ' ' ++ ['0']⟩

/-- The spec-4 field triples before the autoflag column. -/
def sf4pre : List ((ℕ × ℕ) × String × String) :=
  [((0, 1), "bla1", "%s"), ((1, 6), "station", "%-5s"), ((6, 7), "instrumenttype", "%s"),
   ((7, 8), "component", "%s"), ((8, 9), "bla2", "%s"), ((9, 10), "qualityindicator", "%s"),
   ((10, 14), "phaseid", "%4s"), ((14, 15), "weight", "%d")]

/-- The spec-4 field triples after the autoflag column. -/
def sf4post : List ((ℕ × ℕ) × String × String) :=
  [((16, 17), "firstmotion", "%s"), ((17, 18), "bla3", "%s"), ((18, 20), "hour", "%2d"),
   ((20, 22), "minute", "%2d"), ((22, 28), "second", "%6.2f"), ((28, 29), "bla4", "%s"),
   ((29, 33), "duration", "%4d"), ((33, 40), "amplitude", "%f7.1"), ((40, 41), "bla5", "%s"),
   ((41, 45), "period", "%4.2f"), ((45, 46), "bla6", "%s"), ((46, 51), "backazimuth", "%5.1f"),
   ((51, 52), "bla7", "%s"), ((52, 56), "phasevelocity", "%4.0f"),
   ((56, 60), "incidenceangle", "%4.0f"), ((60, 63), "azimuthresid", "%3d"),
   ((63, 68), "traveltimeresid", "%5.1f"), ((68, 70), "weight2", "%2d"),
   ((70, 75), "distance", "%5.0f"), ((75, 76), "bla8", "%s"), ((76, 79), "azimuth", "%3d"),
   ((79, 80), "linetype", "%s")]

/-- A 1-line field set whose first magnitude is 0.0 with agency TES, second is
the all-default sentinel, third is 3.3 L with no agency. -/
def magRow : Series :=
  [("magnitude", .float (PQ.ofInt 0)), ("magtype", .str ""), ("magagency", .str "TES"),
   ("magnitude2", .float (PQ.ofInt 0)), ("mag2type", .str ""), ("mag2agency", .str ""),
   ("magnitude3", .float ⟨33, 10⟩), ("mag3type", .str "L"), ("mag3agency", .str "")]

/-- A resolution context with no comment table, no inventory and no waveform. -/
def dicEmpty : NslcDict := ⟨none, none, none, "UK", "BH", ⟨"FOO", "Z"⟩⟩

/-- A resolution context whose only source is a one-trace waveform stream. -/
def dicWave : NslcDict :=
  ⟨none, none, some [⟨"UU", "FOO", "00", "BHZ"⟩], "UK", "BH", ⟨"FOO", "Z"⟩⟩

/-! # Proof layer -/

/-! ## Decimal digits: printing and reading back -/

theorem digitVal_chrD {d : ℕ} (h : d < 10) : digitVal (chrD d) = d := by
  interval_cases d <;> rfl

theorem isDigit_chrD {d : ℕ} (h : d < 10) : (chrD d).isDigit = true := by
  interval_cases d <;> rfl

theorem vRev_ndRev : ∀ fuel n, n ≤ fuel → vRev (ndRev fuel n) = n := by
  intro fuel
  induction fuel with
  | zero => intro n hn; interval_cases n; rfl
  | succ f ih =>
      intro n hn
      match n with
      | 0 => rfl
      | n + 1 =>
          have hlt : (n + 1) / 10 < n + 1 := Nat.div_lt_self (Nat.succ_pos n) (by norm_num)
          have hdiv : (n + 1) / 10 ≤ f := by omega
          simp only [ndRev, vRev, ih _ hdiv]
          omega

theorem ndRev_lt : ∀ fuel n d, d ∈ ndRev fuel n → d < 10 := by
  intro fuel
  induction fuel with
  | zero => intro n d hd; match n with
      | 0 => simp [ndRev] at hd
      | _ + 1 => simp [ndRev] at hd
  | succ f ih =>
      intro n d hd
      match n with
      | 0 => simp [ndRev] at hd
      | n + 1 =>
          simp only [ndRev, List.mem_cons] at hd
          rcases hd with h | h
          · omega
          · exact ih _ _ h

theorem ndRev_len : ∀ fuel n k, n < 10 ^ k → (ndRev fuel n).length ≤ k := by
  intro fuel
  induction fuel with
  | zero => intro n k _; match n with
      | 0 => simp [ndRev]
      | _ + 1 => simp [ndRev]
  | succ f ih =>
      intro n k hk
      match n with
      | 0 => simp [ndRev]
      | n + 1 =>
          have hk1 : 1 ≤ k := by
            by_contra hc
            have hk0 : k = 0 := by omega
            rw [hk0, pow_zero] at hk
            omega
          have hdiv : (n + 1) / 10 < 10 ^ (k - 1) := by
            have h10 : 10 ^ k = 10 ^ (k - 1) * 10 := by
              have : k - 1 + 1 = k := by omega
              calc 10 ^ k = 10 ^ (k - 1 + 1) := by rw [this]
                _ = 10 ^ (k - 1) * 10 := by rw [pow_succ]
            exact Nat.div_lt_of_lt_mul (by omega)
          have := ih ((n + 1) / 10) (k - 1) hdiv
          simp only [ndRev, List.length_cons]
          omega

theorem digitsVal_rev_map : ∀ (l : List ℕ) (a : ℕ), (∀ d ∈ l, d < 10) →
    ((l.map chrD).reverse).foldl (fun x c => 10 * x + digitVal c) a =
      a * 10 ^ l.length + vRev l := by
  intro l
  induction l with
  | nil => intro a _; simp [vRev]
  | cons d t ih =>
      intro a hlt
      have hd : d < 10 := hlt d (List.mem_cons_self d t)
      have ht : ∀ x ∈ t, x < 10 := fun x hx => hlt x (List.mem_cons_of_mem d hx)
      simp only [List.map_cons, List.reverse_cons, List.foldl_append, List.foldl_cons,
        List.foldl_nil, ih a ht, digitVal_chrD hd, vRev, List.length_cons]
      ring

theorem digitsVal_natDigitsMSB (n : ℕ) : digitsVal (natDigitsMSB n) = n := by
  by_cases h : n = 0
  · subst h; rfl
  · unfold natDigitsMSB digitsVal
    rw [if_neg h, List.map_reverse]
    rw [digitsVal_rev_map (ndRev n n) 0 (fun d hd => ndRev_lt n n d hd)]
    rw [vRev_ndRev n n le_rfl]
    simp

theorem natDigitsMSB_all_digit (n : ℕ) : ∀ c ∈ natDigitsMSB n, c.isDigit = true := by
  intro c hc
  unfold natDigitsMSB at hc
  by_cases h : n = 0
  · subst h; simp at hc; subst hc; rfl
  · rw [if_neg h] at hc
    simp only [List.mem_map, List.mem_reverse] at hc
    obtain ⟨d, hd, rfl⟩ := hc
    exact isDigit_chrD (ndRev_lt n n d hd)

theorem natDigitsMSB_ne_nil (n : ℕ) : natDigitsMSB n ≠ [] := by
  unfold natDigitsMSB
  by_cases h : n = 0
  · simp [h]
  · rw [if_neg h]
    intro hc
    have h1 : vRev (ndRev n n) = n := vRev_ndRev n n le_rfl
    have h2 : ndRev n n = [] := by
      have := congrArg List.length hc
      simp at this
      exact this
    rw [h2] at h1
    simp [vRev] at h1
    exact h (h1.symm)

theorem natDigitsMSB_len_le {n k : ℕ} (h : n < 10 ^ k) (hk : 1 ≤ k) :
    (natDigitsMSB n).length ≤ k := by
  unfold natDigitsMSB
  by_cases h0 : n = 0
  · simp [h0]; omega
  · rw [if_neg h0]
    simpa using ndRev_len n n k h

theorem digitsVal_replicate_zero (j : ℕ) (l : List Char) :
    digitsVal (List.replicate j '0' ++ l) = digitsVal l := by
  induction j with
  | zero => rfl
  | succ i ih => simpa [List.replicate_succ, digitsVal] using ih

/-! ## takeWhile, dropWhile and strip facts -/

theorem takeWhile_append_all {p : Char → Bool} :
    ∀ (ds rest : List Char), (∀ c ∈ ds, p c = true) →
      (ds ++ rest).takeWhile p = ds ++ rest.takeWhile p := by
  intro ds
  induction ds with
  | nil => simp
  | cons d t ih =>
      intro rest h
      have hd : p d = true := h d (List.mem_cons_self d t)
      simp [List.takeWhile_cons, hd, ih rest (fun c hc => h c (List.mem_cons_of_mem d hc))]

theorem dropWhile_append_all {p : Char → Bool} :
    ∀ (ds rest : List Char), (∀ c ∈ ds, p c = true) →
      (ds ++ rest).dropWhile p = rest.dropWhile p := by
  intro ds
  induction ds with
  | nil => simp
  | cons d t ih =>
      intro rest h
      have hd : p d = true := h d (List.mem_cons_self d t)
      simp [List.dropWhile_cons, hd, ih rest (fun c hc => h c (List.mem_cons_of_mem d hc))]

theorem dropWhile_all_neg {p : Char → Bool} :
    ∀ (l : List Char), (∀ c ∈ l, p c = false) → l.dropWhile p = l := by
  intro l h
  cases l with
  | nil => rfl
  | cons d t => simp [List.dropWhile_cons, h d (List.mem_cons_self d t)]

theorem stripL_all_nonspace {l : List Char} (h : ∀ c ∈ l, pyIsSpace c = false) :
    stripL l = l := by
  unfold stripL
  rw [dropWhile_all_neg l h,
    dropWhile_all_neg l.reverse (fun c hc => h c (List.mem_reverse.mp hc)),
    List.reverse_reverse]

theorem stripL_pad_nonspace (j : ℕ) (l : List Char)
    (h : ∀ c ∈ l, pyIsSpace c = false) :
    stripL (List.replicate j ' ' ++ l) = l := by
  unfold stripL
  rw [dropWhile_append_all _ l (by
    intro c hc
    rw [List.eq_of_mem_replicate hc]
    rfl)]
  rw [dropWhile_all_neg l h,
    dropWhile_all_neg l.reverse (fun c hc => h c (List.mem_reverse.mp hc)),
    List.reverse_reverse]

theorem not_space_of_digit {c : Char} (h : c.isDigit = true) : pyIsSpace c = false := by
  by_contra hc
  simp only [Bool.not_eq_false, pyIsSpace, Bool.or_eq_true, decide_eq_true_eq] at hc
  rcases hc with ((((h1 | h1) | h1) | h1) | h1) | h1 <;> (subst h1; exact absurd h (by decide))

theorem digit_ne_minus {c : Char} (h : c.isDigit = true) : c ≠ '-' := by
  rintro rfl; exact absurd h (by decide)

theorem digit_ne_plus {c : Char} (h : c.isDigit = true) : c ≠ '+' := by
  rintro rfl; exact absurd h (by decide)

/-! ## Parsing what the fixed-point printer emits -/

theorem floatCore_split (neg : Bool) (ds fs : List Char)
    (hds : ∀ c ∈ ds, c.isDigit = true) (hne : ds ≠ [])
    (hfs : ∀ c ∈ fs, c.isDigit = true) :
    floatCore ((if neg then ['-'] else []) ++ ds ++ (if fs.isEmpty then [] else '.' :: fs)) =
      some (if neg then
              ((PQ.ofInt (digitsVal ds)).add ((PQ.ofInt (digitsVal fs)).divN (10 ^ fs.length))).neg
            else
              (PQ.ofInt (digitsVal ds)).add ((PQ.ofInt (digitsVal fs)).divN (10 ^ fs.length))) := by
  have hip : List.takeWhile Char.isDigit (ds ++ (if fs.isEmpty then [] else '.' :: fs)) = ds := by
    rw [takeWhile_append_all ds _ hds]
    by_cases hfe : fs.isEmpty
    · simp [hfe]
    · have hfe' : fs.isEmpty = false := by simpa using hfe
      simp +decide [hfe', List.takeWhile_cons]
  have hr1 : List.dropWhile Char.isDigit (ds ++ (if fs.isEmpty then [] else '.' :: fs)) =
      (if fs.isEmpty then [] else '.' :: fs) := by
    rw [dropWhile_append_all ds _ hds]
    by_cases hfe : fs.isEmpty
    · simp [hfe]
    · have hfe' : fs.isEmpty = false := by simpa using hfe
      simp +decide [hfe', List.dropWhile_cons]
  have hspan : spanSign ((if neg then ['-'] else []) ++ ds ++ (if fs.isEmpty then [] else '.' :: fs)) =
      (neg, ds ++ (if fs.isEmpty then [] else '.' :: fs)) := by
    cases neg with
    | true => simp [spanSign]
    | false =>
        obtain ⟨d0, dt, rfl⟩ : ∃ d0 dt, ds = d0 :: dt := by
          cases ds with
          | nil => exact absurd rfl hne
          | cons a b => exact ⟨a, b, rfl⟩
        have hd0 : d0.isDigit = true := hds d0 (List.mem_cons_self d0 dt)
        simp [spanSign, digit_ne_minus hd0, digit_ne_plus hd0]
  unfold floatCore
  rw [hspan]
  simp only []
  rw [hip, hr1]
  by_cases hfe : fs.isEmpty
  · have hfnil : fs = [] := List.isEmpty_iff.mp hfe
    subst hfnil
    simp [hne]
  · simp only [hfe, if_false]
    have htw : List.takeWhile Char.isDigit fs = fs := by
      have := takeWhile_append_all fs [] hfs
      simpa using this
    have hdw : List.dropWhile Char.isDigit fs = [] := by
      have := dropWhile_append_all fs [] hfs
      simpa using this
    simp [htw, hdw, hne]

/-! ## Value bridge lemmas for PQ -/

theorem PQ.val_mk (a : ℤ) (b : ℕ) : PQ.val ⟨a, b⟩ = (a : ℚ) / (b : ℚ) := rfl

theorem PQ.val_ofInt (n : ℤ) : (PQ.ofInt n).val = (n : ℚ) := by
  simp [PQ.ofInt, PQ.val]

theorem PQ.val_neg (a : PQ) : a.neg.val = -a.val := by
  simp [PQ.neg, PQ.val, neg_div]

theorem PQ.val_add (a b : PQ) (ha : a.den ≠ 0) (hb : b.den ≠ 0) :
    (a.add b).val = a.val + b.val := by
  have ha' : ((a.den : ℚ)) ≠ 0 := by exact_mod_cast ha
  have hb' : ((b.den : ℚ)) ≠ 0 := by exact_mod_cast hb
  simp only [PQ.add, PQ.val]
  push_cast
  field_simp
  try ring

theorem PQ.val_divN (a : PQ) (k : ℕ) (ha : a.den ≠ 0) (hk : k ≠ 0) :
    (a.divN k).val = a.val / (k : ℚ) := by
  have ha' : ((a.den : ℚ)) ≠ 0 := by exact_mod_cast ha
  have hk' : ((k : ℚ)) ≠ 0 := by exact_mod_cast hk
  simp only [PQ.divN, PQ.val]
  push_cast
  field_simp

/-! ## The fixed-point printer is exact on exactly-representable values -/

theorem rhalfEven_exact (n : ℤ) (d : ℕ) (hd : 0 < d) :
    rhalfEven ⟨n * (d : ℤ), d⟩ = n := by
  have h1 : (n * (d : ℤ)).fdiv (d : ℤ) = n :=
    Int.mul_fdiv_cancel _ (by exact_mod_cast hd.ne')
  have h2 : (0 : ℤ) < (d : ℤ) := by exact_mod_cast hd
  simp [rhalfEven, PQ.floorq, h1, h2]

theorem fixedBody_exact (p : ℕ) (n : ℤ) :
    fixedBody p ⟨n, 10 ^ p⟩ =
      natDigitsMSB (n.natAbs / 10 ^ p) ++
        (if p = 0 then [] else
          '.' :: (List.replicate (p - (natDigitsMSB (n.natAbs % 10 ^ p)).length) '0' ++
            natDigitsMSB (n.natAbs % 10 ^ p))) := by
  have hp : (0 : ℤ) ≤ ((p : ℕ) : ℤ) := Int.natCast_nonneg p
  have ht : ((p : ℕ) : ℤ).toNat = p := Int.toNat_natCast p
  have hcast : (10 : ℤ) ^ p = ((10 ^ p : ℕ) : ℤ) := by push_cast; ring
  have h10 : (0 : ℕ) < 10 ^ p := pow_pos (by norm_num) p
  unfold fixedBody PQ.mulPow10
  rw [if_pos hp, ht, hcast, rhalfEven_exact n (10 ^ p) h10]

/-! ## Parsing the printed forms back -/

theorem fixedBody_all_ok (p : ℕ) (n : ℤ) :
    ∀ c ∈ fixedBody p ⟨n, 10 ^ p⟩, pyIsSpace c = false := by
  rw [fixedBody_exact]
  intro c hc
  rw [List.mem_append] at hc
  rcases hc with hc | hc
  · exact not_space_of_digit (natDigitsMSB_all_digit _ c hc)
  · by_cases hp : p = 0
    · simp [hp] at hc
    · rw [if_neg hp] at hc
      rcases List.mem_cons.mp hc with rfl | hc
      · rfl
      · rw [List.mem_append] at hc
        rcases hc with hc | hc
        · rw [List.eq_of_mem_replicate hc]; rfl
        · exact not_space_of_digit (natDigitsMSB_all_digit _ c hc)

theorem pyFloat_of_padded_fixed (w p : ℕ) (n : ℤ) :
    ∃ r : PQ,
      pyFloat ⟨padCharsLeft w ((if n < 0 then ['-'] else []) ++ fixedBody p ⟨n, 10 ^ p⟩)⟩ = some r ∧
        r.val = (n : ℚ) / (10 : ℚ) ^ p := by
  have h10 : (0 : ℕ) < 10 ^ p := pow_pos (by norm_num) p
  have hmod : n.natAbs % 10 ^ p < 10 ^ p := Nat.mod_lt _ h10
  set ds := natDigitsMSB (n.natAbs / 10 ^ p) with hds_def
  set ms := natDigitsMSB (n.natAbs % 10 ^ p) with hms_def
  set fs : List Char := if p = 0 then [] else List.replicate (p - ms.length) '0' ++ ms with hfs_def
  have hbody : fixedBody p ⟨n, 10 ^ p⟩ = ds ++ (if fs.isEmpty then [] else '.' :: fs) := by
    rw [fixedBody_exact]
    by_cases hp : p = 0
    · simp [hfs_def, hds_def, hp, Nat.div_one]
    · have hfs_ne : fs ≠ [] := by
        rw [hfs_def, if_neg hp]
        intro hcon
        have := natDigitsMSB_ne_nil (n.natAbs % 10 ^ p)
        rw [List.append_eq_nil] at hcon
        exact this hcon.2
      have : fs.isEmpty = false := by
        cases hfs : fs with
        | nil => exact absurd hfs hfs_ne
        | cons a b => rfl
      rw [if_neg hp, this, hfs_def, if_neg hp]
      simp
  have hsign_eq : (if n < 0 then (['-'] : List Char) else []) =
      (if decide (n < 0) = true then ['-'] else []) := by
    by_cases hn : n < 0 <;> simp [hn]
  have hnonspace : ∀ c ∈ (if decide (n < 0) = true then (['-'] : List Char) else []) ++
      fixedBody p ⟨n, 10 ^ p⟩, pyIsSpace c = false := by
    intro c hc
    rw [List.mem_append] at hc
    rcases hc with hc | hc
    · by_cases hn : n < 0
      · simp [hn] at hc; subst hc; rfl
      · simp [hn] at hc
    · exact fixedBody_all_ok p n c hc
  have hfs_digits : ∀ c ∈ fs, c.isDigit = true := by
    intro c hc
    rw [hfs_def] at hc
    by_cases hp : p = 0
    · simp [hp] at hc
    · rw [if_neg hp, List.mem_append] at hc
      rcases hc with hc | hc
      · rw [List.eq_of_mem_replicate hc]; rfl
      · exact natDigitsMSB_all_digit _ c hc
  have hsplit := floatCore_split (decide (n < 0)) ds fs
    (natDigitsMSB_all_digit _) (natDigitsMSB_ne_nil _) hfs_digits
  refine ⟨(if decide (n < 0) = true then
      ((PQ.ofInt (digitsVal ds)).add ((PQ.ofInt (digitsVal fs)).divN (10 ^ fs.length))).neg
    else (PQ.ofInt (digitsVal ds)).add ((PQ.ofInt (digitsVal fs)).divN (10 ^ fs.length))),
    ?_, ?_⟩
  · show floatCore (stripL (padCharsLeft w
        ((if n < 0 then ['-'] else []) ++ fixedBody p ⟨n, 10 ^ p⟩))) = _
    unfold padCharsLeft
    rw [hsign_eq, stripL_pad_nonspace _ _ hnonspace, hbody, ← List.append_assoc]
    exact hsplit
  · have hlen : fs.length = p := by
      rw [hfs_def]
      by_cases hp : p = 0
      · simp [hp]
      · rw [if_neg hp]
        have hle : ms.length ≤ p := natDigitsMSB_len_le hmod (by omega)
        simp only [List.length_append, List.length_replicate]
        omega
    have hdv_ds : digitsVal ds = n.natAbs / 10 ^ p := digitsVal_natDigitsMSB _
    have hdv_fs : digitsVal fs = n.natAbs % 10 ^ p := by
      rw [hfs_def]
      by_cases hp : p = 0
      · simp [hp, digitsVal, Nat.mod_one]
      · rw [if_neg hp, digitsVal_replicate_zero, hms_def, digitsVal_natDigitsMSB]
    have hXQ : ((10 : ℚ) ^ p) ≠ 0 := by positivity
    have hmant : ((PQ.ofInt (digitsVal ds)).add
        ((PQ.ofInt (digitsVal fs)).divN (10 ^ fs.length))).val =
          (n.natAbs : ℚ) / (10 : ℚ) ^ p := by
      rw [PQ.val_add _ _ (by simp [PQ.ofInt]) (by simp [PQ.ofInt, PQ.divN]; try positivity),
        PQ.val_divN _ _ (by simp [PQ.ofInt]) (by positivity),
        PQ.val_ofInt, PQ.val_ofInt, hdv_ds, hdv_fs, hlen]
      have hNat : 10 ^ p * (n.natAbs / 10 ^ p) + n.natAbs % 10 ^ p = n.natAbs :=
        Nat.div_add_mod n.natAbs (10 ^ p)
      have hcast : ((10 ^ p : ℕ) : ℚ) = (10 : ℚ) ^ p := by push_cast; ring
      rw [hcast, eq_div_iff hXQ, add_mul, div_mul_cancel₀ _ hXQ]
      calc (↑(n.natAbs / 10 ^ p) : ℚ) * 10 ^ p + ↑(n.natAbs % 10 ^ p)
          = ((10 ^ p * (n.natAbs / 10 ^ p) + n.natAbs % 10 ^ p : ℕ) : ℚ) := by
            push_cast; ring
        _ = (n.natAbs : ℚ) := by rw [hNat]
    by_cases hn : n < 0
    · have hd : decide (n < 0) = true := by simpa using hn
      rw [hd, if_pos rfl, PQ.val_neg, hmant]
      have habs : ((n.natAbs : ℚ)) = -(n : ℚ) := by
        rw [Int.cast_natAbs]
        exact_mod_cast abs_of_neg hn
      rw [habs, neg_div, neg_neg]
    · have hd : decide (n < 0) = false := by simpa using hn
      rw [hd]
      simp only [Bool.false_eq_true, if_false]
      rw [hmant]
      have habs : ((n.natAbs : ℚ)) = (n : ℚ) := by
        rw [Int.cast_natAbs]
        exact_mod_cast abs_of_nonneg (le_of_not_lt hn)
      rw [habs]

theorem pyInt_of_padded (w : ℕ) (n : ℤ) :
    pyInt ⟨padCharsLeft w ((if n < 0 then ['-'] else []) ++ natDigitsMSB n.natAbs)⟩ =
      some n := by
  have hsign_eq : (if n < 0 then (['-'] : List Char) else []) =
      (if decide (n < 0) = true then ['-'] else []) := by
    by_cases hn : n < 0 <;> simp [hn]
  have hnonspace : ∀ c ∈ (if decide (n < 0) = true then (['-'] : List Char) else []) ++
      natDigitsMSB n.natAbs, pyIsSpace c = false := by
    intro c hc
    rw [List.mem_append] at hc
    rcases hc with hc | hc
    · by_cases hn : n < 0
      · simp [hn] at hc; subst hc; rfl
      · simp [hn] at hc
    · exact not_space_of_digit (natDigitsMSB_all_digit _ c hc)
  have hstr : stripL (String.toList ⟨padCharsLeft w
      ((if n < 0 then ['-'] else []) ++ natDigitsMSB n.natAbs)⟩) =
      (if decide (n < 0) = true then ['-'] else []) ++ natDigitsMSB n.natAbs := by
    show stripL (padCharsLeft w ((if n < 0 then ['-'] else []) ++ natDigitsMSB n.natAbs)) = _
    unfold padCharsLeft
    rw [hsign_eq, stripL_pad_nonspace _ _ hnonspace]
  have hspan : spanSign ((if decide (n < 0) = true then ['-'] else []) ++ natDigitsMSB n.natAbs) =
      (decide (n < 0), natDigitsMSB n.natAbs) := by
    by_cases hn : n < 0
    · simp [hn, spanSign]
    · have hd : decide (n < 0) = false := by simpa using hn
      rw [hd]
      simp only [Bool.false_eq_true, if_false, List.nil_append]
      obtain ⟨d0, dt, hd2⟩ : ∃ d0 dt, natDigitsMSB n.natAbs = d0 :: dt := by
        cases hnd : natDigitsMSB n.natAbs with
        | nil => exact absurd hnd (natDigitsMSB_ne_nil _)
        | cons a b => exact ⟨a, b, rfl⟩
      have hd0 : d0.isDigit = true := by
        have hall := natDigitsMSB_all_digit n.natAbs
        rw [hd2] at hall
        exact hall d0 (List.mem_cons_self d0 dt)
      rw [hd2]
      simp [spanSign, digit_ne_minus hd0, digit_ne_plus hd0]
  have hall : (natDigitsMSB n.natAbs).all Char.isDigit = true := by
    rw [List.all_eq_true]
    exact natDigitsMSB_all_digit _
  unfold pyInt
  rw [hstr]
  simp only [hspan]
  rw [if_neg (natDigitsMSB_ne_nil n.natAbs), if_pos hall, digitsVal_natDigitsMSB]
  by_cases hn : n < 0
  · have hd : decide (n < 0) = true := by simpa using hn
    rw [hd]
    simp only [eq_self_iff_true, if_true, ite_true, Option.some.injEq]
    rcases Int.natAbs_eq n with h | h
    · have := Int.natCast_nonneg n.natAbs
      omega
    · omega
  · have hd : decide (n < 0) = false := by simpa using hn
    rw [hd]
    simp only [Bool.false_eq_true, if_false, ite_false, Option.some.injEq]
    rcases Int.natAbs_eq n with h | h
    · omega
    · have := Int.natCast_nonneg n.natAbs
      omega

/-! ## Rendering through the percent engine, one registered code at a time -/

theorem ppf_f41 (q : PQ) : pyPercentFormat "%4.1f" (.float q) =
    .ok ⟨padCharsLeft 4 ((if q.negb then ['-'] else []) ++ fixedBody 1 q)⟩ := by
  have h : "%4.1f".toList = ['%', '4', '.', '1', 'f'] := by decide
  simp +decide [pyPercentFormat, h, ppfAux, readFlags, renderConv, padNum, digitsVal, digitVal,
    List.takeWhile, List.dropWhile, Except.map, Except.bind, bind, List.append_nil]

theorem ppf_f42 (q : PQ) : pyPercentFormat "%4.2f" (.float q) =
    .ok ⟨padCharsLeft 4 ((if q.negb then ['-'] else []) ++ fixedBody 2 q)⟩ := by
  have h : "%4.2f".toList = ['%', '4', '.', '2', 'f'] := by decide
  simp +decide [pyPercentFormat, h, ppfAux, readFlags, renderConv, padNum, digitsVal, digitVal,
    List.takeWhile, List.dropWhile, Except.map, Except.bind, bind, List.append_nil]

theorem ppf_f73 (q : PQ) : pyPercentFormat "%7.3f" (.float q) =
    .ok ⟨padCharsLeft 7 ((if q.negb then ['-'] else []) ++ fixedBody 3 q)⟩ := by
  have h : "%7.3f".toList = ['%', '7', '.', '3', 'f'] := by decide
  simp +decide [pyPercentFormat, h, ppfAux, readFlags, renderConv, padNum, digitsVal, digitVal,
    List.takeWhile, List.dropWhile, Except.map, Except.bind, bind, List.append_nil]

theorem ppf_f83 (q : PQ) : pyPercentFormat "%8.3f" (.float q) =
    .ok ⟨padCharsLeft 8 ((if q.negb then ['-'] else []) ++ fixedBody 3 q)⟩ := by
  have h : "%8.3f".toList = ['%', '8', '.', '3', 'f'] := by decide
  simp +decide [pyPercentFormat, h, ppfAux, readFlags, renderConv, padNum, digitsVal, digitVal,
    List.takeWhile, List.dropWhile, Except.map, Except.bind, bind, List.append_nil]

theorem ppf_f51 (q : PQ) : pyPercentFormat "%5.1f" (.float q) =
    .ok ⟨padCharsLeft 5 ((if q.negb then ['-'] else []) ++ fixedBody 1 q)⟩ := by
  have h : "%5.1f".toList = ['%', '5', '.', '1', 'f'] := by decide
  simp +decide [pyPercentFormat, h, ppfAux, readFlags, renderConv, padNum, digitsVal, digitVal,
    List.takeWhile, List.dropWhile, Except.map, Except.bind, bind, List.append_nil]

theorem ppf_f62 (q : PQ) : pyPercentFormat "%6.2f" (.float q) =
    .ok ⟨padCharsLeft 6 ((if q.negb then ['-'] else []) ++ fixedBody 2 q)⟩ := by
  have h : "%6.2f".toList = ['%', '6', '.', '2', 'f'] := by decide
  simp +decide [pyPercentFormat, h, ppfAux, readFlags, renderConv, padNum, digitsVal, digitVal,
    List.takeWhile, List.dropWhile, Except.map, Except.bind, bind, List.append_nil]

theorem ppf_f61 (q : PQ) : pyPercentFormat "%6.1f" (.float q) =
    .ok ⟨padCharsLeft 6 ((if q.negb then ['-'] else []) ++ fixedBody 1 q)⟩ := by
  have h : "%6.1f".toList = ['%', '6', '.', '1', 'f'] := by decide
  simp +decide [pyPercentFormat, h, ppfAux, readFlags, renderConv, padNum, digitsVal, digitVal,
    List.takeWhile, List.dropWhile, Except.map, Except.bind, bind, List.append_nil]

theorem ppf_f40 (q : PQ) : pyPercentFormat "%4.0f" (.float q) =
    .ok ⟨padCharsLeft 4 ((if q.negb then ['-'] else []) ++ fixedBody 0 q)⟩ := by
  have h : "%4.0f".toList = ['%', '4', '.', '0', 'f'] := by decide
  simp +decide [pyPercentFormat, h, ppfAux, readFlags, renderConv, padNum, digitsVal, digitVal,
    List.takeWhile, List.dropWhile, Except.map, Except.bind, bind, List.append_nil]

theorem ppf_f50 (q : PQ) : pyPercentFormat "%5.0f" (.float q) =
    .ok ⟨padCharsLeft 5 ((if q.negb then ['-'] else []) ++ fixedBody 0 q)⟩ := by
  have h : "%5.0f".toList = ['%', '5', '.', '0', 'f'] := by decide
  simp +decide [pyPercentFormat, h, ppfAux, readFlags, renderConv, padNum, digitsVal, digitVal,
    List.takeWhile, List.dropWhile, Except.map, Except.bind, bind, List.append_nil]

theorem ppf_f63 (q : PQ) : pyPercentFormat "%6.3f" (.float q) =
    .ok ⟨padCharsLeft 6 ((if q.negb then ['-'] else []) ++ fixedBody 3 q)⟩ := by
  have h : "%6.3f".toList = ['%', '6', '.', '3', 'f'] := by decide
  simp +decide [pyPercentFormat, h, ppfAux, readFlags, renderConv, padNum, digitsVal, digitVal,
    List.takeWhile, List.dropWhile, Except.map, Except.bind, bind, List.append_nil]

theorem ppf_f95 (q : PQ) : pyPercentFormat "%9.5f" (.float q) =
    .ok ⟨padCharsLeft 9 ((if q.negb then ['-'] else []) ++ fixedBody 5 q)⟩ := by
  have h : "%9.5f".toList = ['%', '9', '.', '5', 'f'] := by decide
  simp +decide [pyPercentFormat, h, ppfAux, readFlags, renderConv, padNum, digitsVal, digitVal,
    List.takeWhile, List.dropWhile, Except.map, Except.bind, bind, List.append_nil]

theorem ppf_f105 (q : PQ) : pyPercentFormat "%10.5f" (.float q) =
    .ok ⟨padCharsLeft 10 ((if q.negb then ['-'] else []) ++ fixedBody 5 q)⟩ := by
  have h : "%10.5f".toList = ['%', '1', '0', '.', '5', 'f'] := by decide
  simp +decide [pyPercentFormat, h, ppfAux, readFlags, renderConv, padNum, digitsVal, digitVal,
    List.takeWhile, List.dropWhile, Except.map, Except.bind, bind, List.append_nil]

theorem ppf_f100 (q : PQ) : pyPercentFormat "%10.0f" (.float q) =
    .ok ⟨padCharsLeft 10 ((if q.negb then ['-'] else []) ++ fixedBody 0 q)⟩ := by
  have h : "%10.0f".toList = ['%', '1', '0', '.', '0', 'f'] := by decide
  simp +decide [pyPercentFormat, h, ppfAux, readFlags, renderConv, padNum, digitsVal, digitVal,
    List.takeWhile, List.dropWhile, Except.map, Except.bind, bind, List.append_nil]

theorem ppf_d4 (n : ℤ) : pyPercentFormat "%4d" (.int n) =
    .ok ⟨padCharsLeft 4 ((if n < 0 then ['-'] else []) ++ natDigitsMSB n.natAbs)⟩ := by
  have h : "%4d".toList = ['%', '4', 'd'] := by decide
  simp +decide [pyPercentFormat, h, ppfAux, readFlags, renderConv, padNum, digitsVal, digitVal,
    List.takeWhile, List.dropWhile, Except.map, Except.bind, bind, List.append_nil]

theorem ppf_d2 (n : ℤ) : pyPercentFormat "%2d" (.int n) =
    .ok ⟨padCharsLeft 2 ((if n < 0 then ['-'] else []) ++ natDigitsMSB n.natAbs)⟩ := by
  have h : "%2d".toList = ['%', '2', 'd'] := by decide
  simp +decide [pyPercentFormat, h, ppfAux, readFlags, renderConv, padNum, digitsVal, digitVal,
    List.takeWhile, List.dropWhile, Except.map, Except.bind, bind, List.append_nil]

theorem ppf_d3 (n : ℤ) : pyPercentFormat "%3d" (.int n) =
    .ok ⟨padCharsLeft 3 ((if n < 0 then ['-'] else []) ++ natDigitsMSB n.natAbs)⟩ := by
  have h : "%3d".toList = ['%', '3', 'd'] := by decide
  simp +decide [pyPercentFormat, h, ppfAux, readFlags, renderConv, padNum, digitsVal, digitVal,
    List.takeWhile, List.dropWhile, Except.map, Except.bind, bind, List.append_nil]

theorem ppf_d0 (n : ℤ) : pyPercentFormat "%d" (.int n) =
    .ok ⟨padCharsLeft 0 ((if n < 0 then ['-'] else []) ++ natDigitsMSB n.natAbs)⟩ := by
  have h : "%d".toList = ['%', 'd'] := by decide
  simp +decide [pyPercentFormat, h, ppfAux, readFlags, renderConv, padNum, digitsVal, digitVal,
    List.takeWhile, List.dropWhile, Except.map, Except.bind, bind, List.append_nil]

/-! ## Round-trip properties of the registered decimal codes -/

theorem floatRT_of_render (fmt : String) (w p : ℕ)
    (hmk : mkStringConverter fmt = .ok ⟨fmt, 'f', .float, 1⟩)
    (hrender : ∀ q : PQ, pyPercentFormat fmt (.float q) =
      .ok ⟨padCharsLeft w ((if q.negb then ['-'] else []) ++ fixedBody p q)⟩) :
    FloatRT fmt p := by
  intro sc hsc n
  rw [hmk] at hsc
  injection hsc with hsc
  subst hsc
  have hif : (if (⟨n, 10 ^ p⟩ : PQ).negb then (['-'] : List Char) else []) =
      (if n < 0 then ['-'] else []) := by
    by_cases hn : n < 0 <;> simp [PQ.negb, hn]
  obtain ⟨r, hparse, hval⟩ := pyFloat_of_padded_fixed w p n
  refine ⟨⟨padCharsLeft w ((if n < 0 then ['-'] else []) ++ fixedBody p ⟨n, 10 ^ p⟩)⟩,
    r.divN 1, ?_, ?_, ?_⟩
  · simp only [scCall]
    rw [if_pos trivial]
    unfold scObj2str
    rw [hrender ⟨n, 10 ^ p⟩, hif]
    simp +decide [Except.map]
  · show scCall _ (.str _) = _
    simp only [scCall, scStr2obj]
    rw [if_neg (by decide)]
    unfold scStr2objNum
    simp only []
    rw [hparse]
  · have : (r.divN 1).val = r.val := by
      simp [PQ.divN, PQ.val, Nat.mul_one]
    rw [this, hval, PQ.val_mk]
    push_cast
    ring

theorem intRT_of_render (fmt : String) (w : ℕ)
    (hmk : mkStringConverter fmt = .ok ⟨fmt, 'd', .int, 1⟩)
    (hrender : ∀ m : ℤ, pyPercentFormat fmt (.int m) =
      .ok ⟨padCharsLeft w ((if m < 0 then ['-'] else []) ++ natDigitsMSB m.natAbs)⟩) :
    IntRT fmt := by
  intro sc hsc n
  rw [hmk] at hsc
  injection hsc with hsc
  subst hsc
  refine ⟨⟨padCharsLeft w ((if n < 0 then ['-'] else []) ++ natDigitsMSB n.natAbs)⟩, ?_, ?_⟩
  · simp only [scCall]
    rw [if_pos trivial]
    unfold scObj2str
    rw [hrender n]
    simp +decide [Except.map]
  · simp only [scCall, scStr2obj]
    rw [if_neg (by decide)]
    unfold scStr2objNum
    simp only []
    rw [pyInt_of_padded w n]

/-! # Claim theorems -/

/-- C1 counterexample: the implied-decimal converter built from the format
code percent-4.2-l, applied by obj2str to the INTEGER 1000, renders the text
100000 (Python formats the integer as 1000.00 and the decimal point is then
removed), not the text 1000 the claim states. -/
theorem c1_counterexample :
    (do let sc ← mkStringConverter "%4.2l"
        scObj2str sc (PyVal.int 1000)) = Except.ok "100000" ∧
    ("100000" : String) ≠ "1000" := by
  exact ⟨by decide, by decide⟩

/-- C1 amended: under the implied-decimal code percent-4.2-l it is the FLOAT
value 10.0 that renders as the text 1000 (decimal point removed), and the
4-character text 1000 converts back to the float 10.0; the converter applied
to the integer 1000 also yields the float 10.0 (value 1000/100), not a
string. -/
theorem c1_amended :
    (do let sc ← mkStringConverter "%4.2l"
        scObj2str sc (PyVal.float (PQ.ofInt 10))) = Except.ok "1000" ∧
    (do let sc ← mkStringConverter "%4.2l"
        scCall sc (PyVal.str "1000")) = Except.ok (PyVal.float ⟨1000, 100⟩) ∧
    PQ.val ⟨1000, 100⟩ = 10 ∧
    (do let sc ← mkStringConverter "%4.2l"
        scCall sc (PyVal.int 1000)) = Except.ok (PyVal.float ⟨1000, 100⟩) := by
  refine ⟨by decide, by decide, ?_, by decide⟩
  norm_num [PQ.val]

/-- C2 counterexample: the registered line-4 amplitude format code
percent-f-7.1 is malformed — rendering the value 0.5 produces the text
0.5000007.1 (the percent-f conversion followed by the literal characters 7.1),
which does not parse back: the converter returns 0.0, so
parse(render(0.5)) = 0.0 is not 0.5, and this is not a width truncation. -/
theorem c2_counterexample :
    (do let sc ← mkStringConverter "%f7.1"
        scObj2str sc (PyVal.float ⟨1, 2⟩)) = Except.ok "0.5000007.1" ∧
    (do let sc ← mkStringConverter "%f7.1"
        let s ← scObj2str sc (PyVal.float ⟨1, 2⟩)
        scCall sc (PyVal.str s)) = Except.ok (PyVal.float (PQ.ofInt 0)) ∧
    PQ.val (PQ.ofInt 0) ≠ PQ.val ⟨1, 2⟩ := by
  refine ⟨by decide, by decide, ?_⟩
  norm_num [PQ.val, PQ.ofInt]

/-- C2 amended: for every registered integer code (percent-4d, 2d, 3d, d) the
round trip parse(render(v)) = v holds for every integer v, and for every
registered well-formed fixed-point float code the round trip holds for every
value exactly representable at the code's precision; the registered malformed
code percent-f-7.1 is excluded (see the counterexample), as are the
scientific-notation E codes, the text codes (whose whitespace stripping is the
documented convention of section 4.2), and the malformed numstations code
3d-percent whose rendering raises. -/
theorem c2_amended :
    IntRT "%4d" ∧ IntRT "%2d" ∧ IntRT "%3d" ∧ IntRT "%d" ∧
    FloatRT "%4.1f" 1 ∧ FloatRT "%4.2f" 2 ∧ FloatRT "%7.3f" 3 ∧ FloatRT "%8.3f" 3 ∧
    FloatRT "%5.1f" 1 ∧ FloatRT "%6.2f" 2 ∧ FloatRT "%6.1f" 1 ∧ FloatRT "%4.0f" 0 ∧
    FloatRT "%5.0f" 0 ∧ FloatRT "%6.3f" 3 ∧ FloatRT "%9.5f" 5 ∧ FloatRT "%10.5f" 5 ∧
    FloatRT "%10.0f" 0 := by
  refine ⟨intRT_of_render "%4d" 4 (by decide) ppf_d4,
    intRT_of_render "%2d" 2 (by decide) ppf_d2,
    intRT_of_render "%3d" 3 (by decide) ppf_d3,
    intRT_of_render "%d" 0 (by decide) ppf_d0,
    floatRT_of_render "%4.1f" 4 1 (by decide) ppf_f41,
    floatRT_of_render "%4.2f" 4 2 (by decide) ppf_f42,
    floatRT_of_render "%7.3f" 7 3 (by decide) ppf_f73,
    floatRT_of_render "%8.3f" 8 3 (by decide) ppf_f83,
    floatRT_of_render "%5.1f" 5 1 (by decide) ppf_f51,
    floatRT_of_render "%6.2f" 6 2 (by decide) ppf_f62,
    floatRT_of_render "%6.1f" 6 1 (by decide) ppf_f61,
    floatRT_of_render "%4.0f" 4 0 (by decide) ppf_f40,
    floatRT_of_render "%5.0f" 5 0 (by decide) ppf_f50,
    floatRT_of_render "%6.3f" 6 3 (by decide) ppf_f63,
    floatRT_of_render "%9.5f" 9 5 (by decide) ppf_f95,
    floatRT_of_render "%10.5f" 10 5 (by decide) ppf_f105,
    floatRT_of_render "%10.0f" 10 0 (by decide) ppf_f100⟩

/-- C2 witness: the percent-4.1f round trip instantiated at the value 3.1. -/
theorem c2_witness :
    ∃ (s : String) (r : PQ),
      scCall ⟨"%4.1f", 'f', PyType.float, 1⟩ (PyVal.float ⟨31, 10 ^ 1⟩) =
        Except.ok (PyVal.str s) ∧
      scCall ⟨"%4.1f", 'f', PyType.float, 1⟩ (PyVal.str s) = Except.ok (PyVal.float r) ∧
      r.val = PQ.val ⟨31, 10 ^ 1⟩ :=
  c2_amended.2.2.2.2.1 ⟨"%4.1f", 'f', PyType.float, 1⟩ (by decide) 31

/-- C8: decoding the 1996-10-21 23:59 59.0 line-1 record and the hour-24
minute-01 line-4 record, the assembled pick time falls on calendar day 22 —
one past the origin's day 21 (the hour-24 encoding rolls the pick to the next
day anchored on the first origin's date). -/
theorem c8_theorem :
    (do
      let p1 ← read_line g1line true
      let u1 ← get_utc p1.2
      let p4 ← read_line g4line true
      let u4 ← get_pick_time p4.2 u1
      pure (dayOfUtc u4, dayOfUtc u1)) = Except.ok (22, 21) ∧ (22 : ℤ) = 21 + 1 := by
  exact ⟨by decide, by norm_num⟩

/-- C9: for any converter built from a registered format code, a float-typed
code maps every unparseable slice — blank or not — to the float 0.0, while an
int-typed code maps a non-blank unparseable slice to None. -/
theorem c9_theorem :
    ∀ (fmt : String) (sc : SC), mkStringConverter fmt = .ok sc →
      ((sc.ty = PyType.float → ∀ s : String, pyFloat s = none →
          scStr2obj sc (.str s) = .ok (.float (PQ.ofInt 0))) ∧
        (sc.ty = PyType.int → ∀ s : String, pyInt s = none → pyStrip s ≠ "" →
          scStr2obj sc (.str s) = .ok PyVal.none)) := by
  intro fmt sc _hmk
  obtain ⟨f, ch, ty, dv⟩ := sc
  constructor
  · intro hty s hs
    subst hty
    simp [scStr2obj, scStr2objNum, hs]
  · intro hty s hs hblank
    subst hty
    simp [scStr2obj, scStr2objNum, hs, hblank]

/-- C9 witness: the float code percent-4.1f turns the letters ABC into 0.0,
and the int code percent-2d turns the letters AB into None. -/
theorem c9_witness :
    scStr2obj ⟨"%4.1f", 'f', PyType.float, 1⟩ (.str "ABC") =
      Except.ok (PyVal.float (PQ.ofInt 0)) ∧
    scStr2obj ⟨"%2d", 'd', PyType.int, 1⟩ (.str "AB") = Except.ok PyVal.none := by
  constructor
  · exact ( c9_theorem "%4.1f" ⟨"%4.1f", 'f', PyType.float, 1⟩ (by decide)).1 rfl "ABC" (by decide)
  · exact ( c9_theorem "%2d" ⟨"%2d", 'd', PyType.int, 1⟩ (by decide)).2 rfl "AB" (by decide)
      (by decide)

/-- C10 counterexample: classification does return line type 0 — the
80-column line of 79 spaces ending in the literal character 0 is classified 0
(through the column-80 tag branch), decodes, validates, and yields a record
carrying line type 0; a line of 80 tab characters reaches even the
blank-line branch and is also classified 0. -/
theorem c10_counterexample :
    classify_line zeroline = .ok "0" ∧
    (read_line zeroline true).map Prod.fst = .ok "0" ∧
    classify_line tabs80 = .ok "0" ∧
    (read_line tabs80 true).map Prod.fst = .ok "0" ∧
    ("0" : String) ≠ "4" := by
  exact ⟨by decide, by decide, by decide, by decide, by decide⟩

theorem dropWhile_cons_head {p : Char → Bool} :
    ∀ (l : List Char) (x : Char) (xs : List Char), l.dropWhile p = x :: xs → p x = false := by
  intro l
  induction l with
  | nil => intro x xs h; simp at h
  | cons a t ih =>
      intro x xs h
      rw [List.dropWhile_cons] at h
      by_cases ha : p a
      · rw [if_pos ha] at h
        exact ih x xs h
      · rw [if_neg (by simpa using ha)] at h
        injection h with h1 _
        subst h1
        simpa using ha

theorem stripL_nil_all_space {cs : List Char} (h : stripL cs = []) :
    ∀ c ∈ cs, pyIsSpace c = true := by
  unfold stripL at h
  have h1 : (cs.dropWhile pyIsSpace).reverse.dropWhile pyIsSpace = [] :=
    List.reverse_eq_nil_iff.mp h
  have h2 : ∀ c ∈ (cs.dropWhile pyIsSpace).reverse, pyIsSpace c = true :=
    List.dropWhile_eq_nil_iff.mp h1
  have h3 : ∀ c ∈ cs.dropWhile pyIsSpace, pyIsSpace c = true :=
    fun c hc => h2 c (List.mem_reverse.mpr hc)
  have h4 : cs.dropWhile pyIsSpace = [] := by
    cases hd : cs.dropWhile pyIsSpace with
    | nil => rfl
    | cons x xs =>
        have hx : pyIsSpace x = false := dropWhile_cons_head cs x xs hd
        have hx2 : pyIsSpace x = true := h3 x (by rw [hd]; exact List.mem_cons_self x xs)
        rw [hx] at hx2
        exact absurd hx2 (by decide)
  exact List.dropWhile_eq_nil_iff.mp h4

/-- C10 amended: for an 80-column line, every all-space line has a blank
column 80 and is classified 4 (so the blank-line branch is unreachable on
space-blank lines), and a classification result of 0 can arise only from a
line whose column-80 character is either the literal tag 0 or a non-space
whitespace character. -/
theorem c10_amended :
    ∀ s : String, s.toList.length = 80 →
      ((∀ c ∈ s.toList, c = ' ') → classify_line s = .ok "4") ∧
      (classify_line s = .ok "0" →
        ∃ c, s.toList.get? 79 = some c ∧ c ≠ ' ' ∧ (c = '0' ∨ pyIsSpace c = true)) := by
  intro s hlen
  constructor
  · intro hall
    unfold classify_line
    rw [if_neg (by omega)]
    have hlt : 79 < s.toList.length := by omega
    have h79 : s.toList.get? 79 = some ' ' := by
      rw [List.get?_eq_get hlt]
      congr 1
      exact hall _ (List.get_mem _ _ _)
    rw [if_pos h79]
  · intro hc
    unfold classify_line at hc
    by_cases hl : s.toList.length ≠ 80
    · rw [if_pos hl] at hc
      exact absurd hc (by simp)
    · rw [if_neg hl] at hc
      by_cases h79 : s.toList.get? 79 = some ' '
      · rw [if_pos h79] at hc
        exact absurd hc (by decide)
      · rw [if_neg h79] at hc
        have hlt : 79 < s.toList.length := by omega
        obtain ⟨c, hc79⟩ : ∃ c, s.toList.get? 79 = some c :=
          ⟨_, List.get?_eq_get hlt⟩
        have hcne : c ≠ ' ' := by
          intro hceq
          exact h79 (by rw [hc79, hceq])
        by_cases hstrip : (pyStrip s).toList.length < 1
        · have hnil : stripL s.toList = [] := by
            have h0 : (pyStrip s).toList = stripL s.toList := rfl
            rw [h0] at hstrip
            exact List.eq_nil_of_length_eq_zero (by omega)
          have hsp := stripL_nil_all_space hnil
          exact ⟨c, hc79, hcne, Or.inr (hsp c (List.get?_mem hc79))⟩
        · rw [if_neg hstrip, hc79] at hc
          refine ⟨c, hc79, hcne, Or.inl ?_⟩
          injection hc with hc
          have : [c] = String.toList "0" := congrArg String.toList hc
          simpa using this

/-- C10 witness: the amended statement instantiated on the all-space line. -/
theorem c10_witness : classify_line blank80 = .ok "4" :=
  (c10_amended blank80 (by decide)).1 (by
    intro c hc
    exact List.eq_of_mem_replicate hc)

/-- C3: a line classified as type 4 whose loading-plus-validation attempt
raises a ValueError is reclassified: `read_line` returns exactly the
fallback — load as line type 1, overwrite the linetype field, re-validate
with the type-1 validator — and in particular any error of that type-1
attempt is the error returned to the caller. -/
theorem c3_theorem :
    ∀ (sline : String) (e : String),
      classify_line (pyRstripNL sline) = .ok "4" →
      tryLoadValidate4 (pyRstripNL sline) = .error (.valueError e) →
      read_line sline true = fallback1 (pyRstripNL sline) true ∧
      (∀ err, fallback1 (pyRstripNL sline) true = .error err →
        read_line sline true = .error err) := by
  intro sline e hcl htry
  have hmain : read_line sline true = fallback1 (pyRstripNL sline) true := by
    simp only [read_line]
    rw [hcl]
    simp [Except.bind, bind, htry]
  exact ⟨hmain, fun err herr => by rw [hmain, herr]⟩

/-- C3 witness: the all-space line classifies as 4, fails the type-4
validation (no station), and `read_line` returns the type-1 fallback. -/
theorem c3_witness :
    read_line blank80 true = fallback1 (pyRstripNL blank80) true :=
  (c3_theorem blank80 "No station field found in series" (by decide) (by decide)).1

/-- C7: resolution is a total function of its context (its Lean type returns a
plain quadruple), and whenever every available strategy fails, the result is
the synthesis fallback exactly: the configured default network, the raw
station code, a one-space location, and the configured channel code glued to
the component. -/
theorem c7_theorem :
    ∀ d : NslcDict,
      (∀ df, d.scnldf = some df → isErr (get_nslc_from_comment d.ser4 df) = true) →
      (∀ df, d.nslcdf = some df → isErr (get_nslc_from_inventory d.ser4 df) = true) →
      (∀ st, d.st = some st → isErr (get_nscl_from_waveform d.ser4 st) = true) →
      get_nslc d = (d.network, d.ser4.station, " ", d.channel_pre ++ d.ser4.component) := by
  intro d h1 h2 h3
  obtain ⟨sc, nl, st, nw, cp, s4⟩ := d
  have hcm : ∀ df, sc = some df → ∃ e, get_nslc_from_comment s4 df = .error e := by
    intro df hdf
    have hh := h1 df hdf
    cases hres : get_nslc_from_comment s4 df with
    | ok q => rw [hres] at hh; simp [isErr] at hh
    | error e => exact ⟨e, rfl⟩
  have hin : ∀ df, nl = some df → ∃ e, get_nslc_from_inventory s4 df = .error e := by
    intro df hdf
    have hh := h2 df hdf
    cases hres : get_nslc_from_inventory s4 df with
    | ok q => rw [hres] at hh; simp [isErr] at hh
    | error e => exact ⟨e, rfl⟩
  have hw : ∀ stv, st = some stv → ∃ e, get_nscl_from_waveform s4 stv = .error e := by
    intro stv hst
    have hh := h3 stv hst
    cases hres : get_nscl_from_waveform s4 stv with
    | ok q => rw [hres] at hh; simp [isErr] at hh
    | error e => exact ⟨e, rfl⟩
  unfold get_nslc
  cases sc with
  | none =>
      cases nl with
      | none =>
          cases st with
          | none => rfl
          | some stv =>
              obtain ⟨e, he⟩ := hw stv rfl
              simp [he, get_nscl_from_thin_air]
      | some df =>
          obtain ⟨e2, he2⟩ := hin df rfl
          cases st with
          | none => simp [he2, get_nscl_from_thin_air]
          | some stv =>
              obtain ⟨e, he⟩ := hw stv rfl
              simp [he2, he, get_nscl_from_thin_air]
  | some df =>
      obtain ⟨e1, he1⟩ := hcm df rfl
      cases nl with
      | none =>
          cases st with
          | none => simp [he1, get_nscl_from_thin_air]
          | some stv =>
              obtain ⟨e, he⟩ := hw stv rfl
              simp [he1, he, get_nscl_from_thin_air]
      | some df2 =>
          obtain ⟨e2, he2⟩ := hin df2 rfl
          cases st with
          | none => simp [he1, he2, get_nscl_from_thin_air]
          | some stv =>
              obtain ⟨e, he⟩ := hw stv rfl
              simp [he1, he2, he, get_nscl_from_thin_air]

/-- C7 witness: with no comment table, no inventory and no waveform, the pick
FOO/Z resolves to the synthesized quadruple UK, FOO, blank, BHZ. -/
theorem c7_witness : get_nslc dicEmpty = ("UK", "FOO", " ", "BHZ") := by
  have h := c7_theorem dicEmpty (by intro df hdf; cases hdf) (by intro df hdf; cases hdf)
    (by intro st hst; cases hst)
  rw [h]
  decide

/-- C6: when a waveform stream is attached and the two earlier strategies are
unavailable or fail, resolution is exactly: consult the waveform lookup and
only on its failure fall back to synthesis; and the waveform lookup succeeds
precisely when some trace of the stream matches the pick's station and
component. -/
theorem c6_theorem :
    ∀ (d : NslcDict) (st : List Trace), d.st = some st →
      (∀ df, d.scnldf = some df → isErr (get_nslc_from_comment d.ser4 df) = true) →
      (∀ df, d.nslcdf = some df → isErr (get_nslc_from_inventory d.ser4 df) = true) →
      (get_nslc d = match get_nscl_from_waveform d.ser4 st with
        | .ok q => q
        | .error _ => get_nscl_from_thin_air d.network d.channel_pre d.ser4) ∧
      ((∃ q, get_nscl_from_waveform d.ser4 st = .ok q) ↔
        ∃ tr ∈ st, selectMatch tr d.ser4.station d.ser4.component = true) := by
  intro d st hst h1 h2
  obtain ⟨sc, nl, st0, nw, cp, s4⟩ := d
  have hst' : st0 = some st := hst
  subst hst'
  constructor
  · have hcm : ∀ df, sc = some df → ∃ e, get_nslc_from_comment s4 df = .error e := by
      intro df hdf
      have hh := h1 df hdf
      cases hres : get_nslc_from_comment s4 df with
      | ok q => rw [hres] at hh; simp [isErr] at hh
      | error e => exact ⟨e, rfl⟩
    have hin : ∀ df, nl = some df → ∃ e, get_nslc_from_inventory s4 df = .error e := by
      intro df hdf
      have hh := h2 df hdf
      cases hres : get_nslc_from_inventory s4 df with
      | ok q => rw [hres] at hh; simp [isErr] at hh
      | error e => exact ⟨e, rfl⟩
    unfold get_nslc
    cases hres : get_nscl_from_waveform s4 st with
    | ok q =>
        cases sc with
        | none =>
            cases nl with
            | none => simp [hres]
            | some df =>
                obtain ⟨e2, he2⟩ := hin df rfl
                simp [he2, hres]
        | some df =>
            obtain ⟨e1, he1⟩ := hcm df rfl
            cases nl with
            | none => simp [he1, hres]
            | some df2 =>
                obtain ⟨e2, he2⟩ := hin df2 rfl
                simp [he1, he2, hres]
    | error e =>
        cases sc with
        | none =>
            cases nl with
            | none => simp [hres]
            | some df =>
                obtain ⟨e2, he2⟩ := hin df rfl
                simp [he2, hres]
        | some df =>
            obtain ⟨e1, he1⟩ := hcm df rfl
            cases nl with
            | none => simp [he1, hres]
            | some df2 =>
                obtain ⟨e2, he2⟩ := hin df2 rfl
                simp [he1, he2, hres]
  · unfold get_nscl_from_waveform
    constructor
    · rintro ⟨q, hq⟩
      by_cases hlen : (st.filter fun tr => selectMatch tr s4.station s4.component).length < 1
      · rw [if_pos hlen] at hq
        exact absurd hq (by simp)
      · have hne : (st.filter fun tr => selectMatch tr s4.station s4.component) ≠ [] := by
          intro h0
          rw [h0] at hlen
          simp at hlen
        obtain ⟨tr, htr⟩ := List.exists_mem_of_ne_nil _ hne
        exact ⟨tr, (List.mem_filter.mp htr).1, (List.mem_filter.mp htr).2⟩
    · rintro ⟨tr, htr, hsel⟩
      have hmem : tr ∈ st.filter fun tr => selectMatch tr s4.station s4.component :=
        List.mem_filter.mpr ⟨htr, hsel⟩
      have hlen : ¬ (st.filter fun tr => selectMatch tr s4.station s4.component).length < 1 := by
        have := List.length_pos.mpr (List.ne_nil_of_mem hmem)
        omega
      rw [if_neg hlen]
      cases st with
      | nil => simp at htr
      | cons a t => exact ⟨_, rfl⟩

/-- C6 witness: with only a one-trace stream attached, resolution returns that
trace's identifiers, and the waveform lookup succeeds on it. -/
theorem c6_witness :
    get_nslc dicWave = ("UU", "FOO", "00", "BHZ") ∧
    (∃ q, get_nscl_from_waveform dicWave.ser4 [⟨"UU", "FOO", "00", "BHZ"⟩] = .ok q) := by
  have h := c6_theorem dicWave [⟨"UU", "FOO", "00", "BHZ"⟩] rfl
    (by intro df hdf; cases hdf) (by intro df hdf; cases hdf)
  constructor
  · rw [h.1]
    decide
  · exact h.2.mpr ⟨⟨"UU", "FOO", "00", "BHZ"⟩, by decide, by decide⟩

theorem mem_append_mag (mags : List Magnitude) (m mg : Magnitude) :
    m ∈ append_mag_if_not_default mags mg ↔
      m ∈ mags ∨ (m = mg ∧
        ¬(pyEqQ mg.mag 0 = true ∧ mg.creation_info.agency_id = Option.none ∧
          pyUpper mg.magnitude_type = "M")) := by
  unfold append_mag_if_not_default
  by_cases hc : pyEqQ mg.mag 0 = true ∧ mg.creation_info.agency_id = Option.none ∧
      pyUpper mg.magnitude_type = "M"
  · rw [if_neg (not_not_intro hc)]
    simp [hc]
  · rw [if_pos hc]
    simp [hc, List.mem_append]

theorem get_magnitudes_single (row : Series) (m1 m2 m3 : Magnitude)
    (h1 : magTripleOf row "magnitude" "magtype" "magagency" = .ok m1)
    (h2 : magTripleOf row "magnitude2" "mag2type" "mag2agency" = .ok m2)
    (h3 : magTripleOf row "magnitude3" "mag3type" "mag3agency" = .ok m3) :
    get_magnitudes [row] = .ok (append_mag_if_not_default
      (append_mag_if_not_default (append_mag_if_not_default [] m1) m2) m3) := by
  simp [get_magnitudes, List.foldlM, get_magnitudes_row, h1, h2, h3, Except.bind, bind,
    Except.pure, pure]

theorem get_magnitudes_single_inv (row : Series) (mags : List Magnitude)
    (h : get_magnitudes [row] = .ok mags) :
    ∃ m1 m2 m3,
      magTripleOf row "magnitude" "magtype" "magagency" = .ok m1 ∧
      magTripleOf row "magnitude2" "mag2type" "mag2agency" = .ok m2 ∧
      magTripleOf row "magnitude3" "mag3type" "mag3agency" = .ok m3 ∧
      mags = append_mag_if_not_default
        (append_mag_if_not_default (append_mag_if_not_default [] m1) m2) m3 := by
  cases e1 : magTripleOf row "magnitude" "magtype" "magagency" with
  | error e =>
      exfalso
      simp [get_magnitudes, List.foldlM, get_magnitudes_row, e1, Except.bind, bind] at h
  | ok m1 =>
      cases e2 : magTripleOf row "magnitude2" "mag2type" "mag2agency" with
      | error e =>
          exfalso
          simp [get_magnitudes, List.foldlM, get_magnitudes_row, e1, e2, Except.bind, bind] at h
      | ok m2 =>
          cases e3 : magTripleOf row "magnitude3" "mag3type" "mag3agency" with
          | error e =>
              exfalso
              simp [get_magnitudes, List.foldlM, get_magnitudes_row, e1, e2, e3,
                Except.bind, bind] at h
          | ok m3 =>
              refine ⟨m1, m2, m3, rfl, rfl, rfl, ?_⟩
              have := get_magnitudes_single row m1 m2 m3 e1 e2 e3
              rw [this] at h
              exact (Except.ok.inj h).symm

/-- C4: in the magnitude list assembled from a 1-type record, each of the
three magnitude triples is present if and only if NOT all of (value equals
0.0, agency is None, type code upper-cases to the default M) hold; in
particular a triple with value 0.0 but a recorded agency is present. -/
theorem c4_theorem :
    (∀ (row : Series) (m1 m2 m3 : Magnitude) (mags : List Magnitude),
      magTripleOf row "magnitude" "magtype" "magagency" = .ok m1 →
      magTripleOf row "magnitude2" "mag2type" "mag2agency" = .ok m2 →
      magTripleOf row "magnitude3" "mag3type" "mag3agency" = .ok m3 →
      get_magnitudes [row] = .ok mags →
        ((m1 ∈ mags ↔ ¬(pyEqQ m1.mag 0 = true ∧ m1.creation_info.agency_id = Option.none ∧
            pyUpper m1.magnitude_type = "M")) ∧
         (m2 ∈ mags ↔ ¬(pyEqQ m2.mag 0 = true ∧ m2.creation_info.agency_id = Option.none ∧
            pyUpper m2.magnitude_type = "M")) ∧
         (m3 ∈ mags ↔ ¬(pyEqQ m3.mag 0 = true ∧ m3.creation_info.agency_id = Option.none ∧
            pyUpper m3.magnitude_type = "M")))) ∧
    (∀ (row : Series) (m1 : Magnitude) (mags : List Magnitude),
      magTripleOf row "magnitude" "magtype" "magagency" = .ok m1 →
      pyEqQ m1.mag 0 = true → m1.creation_info.agency_id ≠ Option.none →
      get_magnitudes [row] = .ok mags → m1 ∈ mags) := by
  have hmain : ∀ (row : Series) (m1 m2 m3 : Magnitude) (mags : List Magnitude),
      magTripleOf row "magnitude" "magtype" "magagency" = .ok m1 →
      magTripleOf row "magnitude2" "mag2type" "mag2agency" = .ok m2 →
      magTripleOf row "magnitude3" "mag3type" "mag3agency" = .ok m3 →
      get_magnitudes [row] = .ok mags →
        ((m1 ∈ mags ↔ ¬(pyEqQ m1.mag 0 = true ∧ m1.creation_info.agency_id = Option.none ∧
            pyUpper m1.magnitude_type = "M")) ∧
         (m2 ∈ mags ↔ ¬(pyEqQ m2.mag 0 = true ∧ m2.creation_info.agency_id = Option.none ∧
            pyUpper m2.magnitude_type = "M")) ∧
         (m3 ∈ mags ↔ ¬(pyEqQ m3.mag 0 = true ∧ m3.creation_info.agency_id = Option.none ∧
            pyUpper m3.magnitude_type = "M"))) := by
    intro row m1 m2 m3 mags h1 h2 h3 hmags
    have hval := get_magnitudes_single row m1 m2 m3 h1 h2 h3
    rw [hval] at hmags
    have hm : mags = append_mag_if_not_default
        (append_mag_if_not_default (append_mag_if_not_default [] m1) m2) m3 :=
      (Except.ok.inj hmags).symm
    subst hm
    refine ⟨?_, ?_, ?_⟩
    · rw [mem_append_mag, mem_append_mag, mem_append_mag]
      constructor
      · rintro (((h | ⟨heq, hni⟩) | ⟨heq, hni⟩) | ⟨heq, hni⟩)
        · simp at h
        · rw [heq]; exact hni
        · rw [heq]; exact hni
        · rw [heq]; exact hni
      · intro hni
        exact Or.inl (Or.inl (Or.inr ⟨rfl, hni⟩))
    · rw [mem_append_mag, mem_append_mag, mem_append_mag]
      constructor
      · rintro (((h | ⟨heq, hni⟩) | ⟨heq, hni⟩) | ⟨heq, hni⟩)
        · simp at h
        · rw [heq]; exact hni
        · rw [heq]; exact hni
        · rw [heq]; exact hni
      · intro hni
        exact Or.inl (Or.inr ⟨rfl, hni⟩)
    · rw [mem_append_mag, mem_append_mag, mem_append_mag]
      constructor
      · rintro (((h | ⟨heq, hni⟩) | ⟨heq, hni⟩) | ⟨heq, hni⟩)
        · simp at h
        · rw [heq]; exact hni
        · rw [heq]; exact hni
        · rw [heq]; exact hni
      · intro hni
        exact Or.inr ⟨rfl, hni⟩
  refine ⟨hmain, ?_⟩
  intro row m1 mags h1 hzero hagency hmags
  obtain ⟨m1x, m2x, m3x, e1, e2, e3, hform⟩ := get_magnitudes_single_inv row mags hmags
  exact ((hmain row m1 m2x m3x mags h1 e2 e3 hmags).1).mpr
    (by intro ⟨_, hno, _⟩; exact hagency hno)

/-- C4 witness: in the concrete row whose first magnitude is 0.0 with agency
TES, that magnitude is in the assembled list. -/
theorem c4_witness :
    PyVal.float (PQ.ofInt 0) = (Magnitude.mk (PyVal.float (PQ.ofInt 0)) "M"
      ⟨some (PyVal.str "TES")⟩).mag ∧
    (Magnitude.mk (PyVal.float (PQ.ofInt 0)) "M" ⟨some (PyVal.str "TES")⟩) ∈
      (append_mag_if_not_default (append_mag_if_not_default (append_mag_if_not_default []
        (Magnitude.mk (PyVal.float (PQ.ofInt 0)) "M" ⟨some (PyVal.str "TES")⟩))
        (Magnitude.mk (PyVal.float (PQ.ofInt 0)) "M" ⟨Option.none⟩))
        (Magnitude.mk (PyVal.float ⟨33, 10⟩) "ML" ⟨Option.none⟩)) := by
  constructor
  · rfl
  · exact c4_theorem.2 magRow (Magnitude.mk (PyVal.float (PQ.ofInt 0)) "M"
      ⟨some (PyVal.str "TES")⟩) _ (by decide) (by decide) (by decide) (by decide)

/-! ## Series assignment and decoding-loop lemmas (for C5) -/

theorem sget_map_set_self : ∀ (ser : Series) (na : String) (v : PyVal),
    (ser.find? (·.1 = na)).isSome = true →
    sget (ser.map fun p => if p.1 = na then (p.1, v) else p) na = some v := by
  intro ser na v h
  induction ser with
  | nil => simp at h
  | cons p t ih =>
      by_cases hp : p.1 = na
      · simp [sget, List.map_cons, hp]
      · have h' : (t.find? (·.1 = na)).isSome = true := by
          rw [List.find?_cons_of_neg _ (by simpa using hp)] at h
          exact h
        have := ih h'
        simp only [List.map_cons, if_neg hp]
        unfold sget at this ⊢
        rw [List.find?_cons_of_neg _ (by simpa using hp)]
        exact this

theorem sget_append_self : ∀ (ser : Series) (na : String) (v : PyVal),
    ser.find? (·.1 = na) = Option.none →
    sget (ser ++ [(na, v)]) na = some v := by
  intro ser na v h
  induction ser with
  | nil => simp [sget]
  | cons p t ih =>
      have hp : ¬ p.1 = na := by
        intro hcon
        rw [List.find?_cons_of_pos _ (by simpa using hcon)] at h
        exact Option.noConfusion h
      have h' : t.find? (·.1 = na) = Option.none := by
        rw [List.find?_cons_of_neg _ (by simpa using hp)] at h
        exact h
      have := ih h'
      simp only [List.cons_append]
      unfold sget at this ⊢
      rw [List.find?_cons_of_neg _ (by simpa using hp)]
      exact this

theorem sget_map_set_ne : ∀ (ser : Series) (na nb : String) (v : PyVal), na ≠ nb →
    sget (ser.map fun p => if p.1 = na then (p.1, v) else p) nb = sget ser nb := by
  intro ser na nb v hne
  induction ser with
  | nil => rfl
  | cons p t ih =>
      by_cases hb : p.1 = nb
      · have hpa : ¬ p.1 = na := by
          intro hcon
          exact hne (hcon ▸ hb)
        simp only [List.map_cons, if_neg hpa]
        unfold sget
        rw [List.find?_cons_of_pos _ (by simpa using hb),
          List.find?_cons_of_pos _ (by simpa using hb)]
      · simp only [List.map_cons]
        unfold sget at ih ⊢
        by_cases hpa : p.1 = na
        · rw [if_pos hpa]
          rw [List.find?_cons_of_neg _ (by simpa using hb),
            List.find?_cons_of_neg _ (by simp [hb])]
          exact ih
        · rw [if_neg hpa]
          rw [List.find?_cons_of_neg _ (by simpa using hb),
            List.find?_cons_of_neg _ (by simpa using hb)]
          exact ih

theorem sget_append_ne : ∀ (ser : Series) (na nb : String) (v : PyVal), na ≠ nb →
    sget (ser ++ [(na, v)]) nb = sget ser nb := by
  intro ser na nb v hne
  induction ser with
  | nil =>
      unfold sget
      rw [List.nil_append, List.find?_cons_of_neg _ (by simpa using hne)]
  | cons p t ih =>
      simp only [List.cons_append]
      unfold sget at ih ⊢
      by_cases hb : p.1 = nb
      · rw [List.find?_cons_of_pos _ (by simpa using hb),
          List.find?_cons_of_pos _ (by simpa using hb)]
      · rw [List.find?_cons_of_neg _ (by simpa using hb),
          List.find?_cons_of_neg _ (by simpa using hb)]
        exact ih

theorem sget_sset_self (ser : Series) (na : String) (v : PyVal) :
    sget (sset ser na v) na = some v := by
  unfold sset
  by_cases h : (ser.find? (·.1 = na)).isSome
  · rw [if_pos h]
    exact sget_map_set_self ser na v h
  · rw [if_neg h]
    refine sget_append_self ser na v ?_
    cases hf : ser.find? (·.1 = na) with
    | none => rfl
    | some p => rw [hf] at h; simp at h

theorem sget_sset_ne (ser : Series) (na nb : String) (v : PyVal) (h : na ≠ nb) :
    sget (sset ser na v) nb = sget ser nb := by
  unfold sset
  by_cases hf : (ser.find? (·.1 = na)).isSome
  · rw [if_pos hf]
    exact sget_map_set_ne ser na nb v h
  · rw [if_neg hf]
    exact sget_append_ne ser na nb v h

theorem load_fields_append (sline : String) :
    ∀ (L1 L2 : List ((ℕ × ℕ) × String × String)) (acc : Series),
      load_fields sline (L1 ++ L2) acc =
        (load_fields sline L1 acc) >>= fun a => load_fields sline L2 a := by
  intro L1
  induction L1 with
  | nil =>
      intro L2 acc
      simp [load_fields, Except.bind, bind]
  | cons trip t ih =>
      intro L2 acc
      obtain ⟨sp, na, fo⟩ := trip
      simp only [List.cons_append, load_fields]
      cases hsc : mkStringConverter fo with
      | error e => simp [Except.bind, bind, hsc]
      | ok sc =>
          cases hv : scCall sc (.str (pySlice sline sp.1 sp.2)) with
          | error e => simp [Except.bind, bind, hsc, hv]
          | ok v => simp [Except.bind, bind, hsc, hv, ih]

theorem load_fields_pres (sline : String) :
    ∀ (L : List ((ℕ × ℕ) × String × String)) (acc ser : Series) (nb : String),
      (∀ trip ∈ L, trip.2.1 ≠ nb) →
      load_fields sline L acc = .ok ser → sget ser nb = sget acc nb := by
  intro L
  induction L with
  | nil =>
      intro acc ser nb _ h
      simp only [load_fields] at h
      rw [← Except.ok.inj h]
  | cons trip t ih =>
      intro acc ser nb hn h
      obtain ⟨sp, na, fo⟩ := trip
      cases hsc : mkStringConverter fo with
      | error e =>
          rw [show load_fields sline ((sp, na, fo) :: t) acc = Except.error e from by
            simp [load_fields, hsc, Except.bind, bind]] at h
          exact Except.noConfusion h
      | ok sc =>
          cases hv : scCall sc (.str (pySlice sline sp.1 sp.2)) with
          | error e =>
              rw [show load_fields sline ((sp, na, fo) :: t) acc = Except.error e from by
                simp [load_fields, hsc, hv, Except.bind, bind]] at h
              exact Except.noConfusion h
          | ok v =>
              rw [show load_fields sline ((sp, na, fo) :: t) acc
                  = load_fields sline t (sset acc na v) from by
                simp [load_fields, hsc, hv, Except.bind, bind]] at h
              have hna : na ≠ nb := hn ⟨sp, na, fo⟩ (List.mem_cons_self _ _)
              rw [ih (sset acc na v) ser nb
                (fun trip htrip => hn trip (List.mem_cons_of_mem _ htrip)) h]
              exact sget_sset_ne acc na nb v hna

/-! ## The percent-s converter never returns a one-space string (for C5) -/

theorem ppf_s (t : String) : pyPercentFormat "%s" (.str t) = .ok t := by
  have h : "%s".toList = ['%', 's'] := by decide
  simp +decide [pyPercentFormat, h, ppfAux, readFlags, renderConv, padCharsLeft, digitsVal,
    List.takeWhile, List.dropWhile, Except.map, Except.bind, bind, List.append_nil, Nat.zero_sub]

theorem stripL_ne_single_space (cs : List Char) : stripL cs ≠ [' '] := by
  intro h
  unfold stripL at h
  have h1 : (cs.dropWhile pyIsSpace).reverse.dropWhile pyIsSpace = [' '] := by
    have := congrArg List.reverse h
    simpa using this
  have h2 := dropWhile_cons_head _ ' ' [] h1
  exact absurd h2 (by decide)

theorem scall_s_not_space (t : String) :
    ∃ r : String, scCall ⟨"%s", 's', PyType.str, 1⟩ (.str t) = .ok (.str r) ∧ r ≠ " " := by
  by_cases hlt : (pyStrip t).length < t.length
  · refine ⟨pyStrip t, ?_, ?_⟩
    · simp [scCall, scStr2obj, scStr2objStr, ppf_s, Except.bind, bind, pure, Except.pure, hlt]
    · intro hsp
      have : stripL t.toList = [' '] := by
        have := congrArg String.toList hsp
        simpa [pyStrip] using this
      exact stripL_ne_single_space t.toList this
  · refine ⟨t, ?_, ?_⟩
    · simp [scCall, scStr2obj, scStr2objStr, ppf_s, Except.bind, bind, pure, Except.pure, hlt]
    · intro ht
      subst ht
      exact hlt (by decide)

/-- C5: every decoded 4-type record yields evaluation mode automatic — the
string converter never stores a one-space autoflag (a blank column strips to
the empty string), so the manual branch of `_get_pick` is unreachable. -/
theorem c5_theorem :
    ∀ (line : String) (ser : Series),
      load_sline line "4" = .ok ser → pick_evaluation_mode ser = "automatic" := by
  intro line ser h
  have h' : load_fields line (sf4pre ++ ((15, 16), "autoflag", "%s") :: sf4post)
      (spec4.colname.map fun n => (n, PyVal.none)) = .ok ser := by
    have hzip : spec4.colspec.zip (spec4.colname.zip spec4.colformat) =
        sf4pre ++ ((15, 16), "autoflag", "%s") :: sf4post := by decide
    rw [← hzip]
    exact h
  rw [load_fields_append] at h'
  cases hpre : load_fields line sf4pre (spec4.colname.map fun n => (n, PyVal.none)) with
  | error e => rw [hpre] at h'; simp [Except.bind, bind] at h'
  | ok a1 =>
      rw [hpre] at h'
      simp only [Except.bind, bind] at h'
      obtain ⟨r, hv, hr⟩ := scall_s_not_space (pySlice line 15 16)
      have hmk : mkStringConverter "%s" = Except.ok ⟨"%s", 's', PyType.str, 1⟩ := by decide
      rw [show load_fields line (((15, 16), "autoflag", "%s") :: sf4post) a1
          = load_fields line sf4post (sset a1 "autoflag" (.str r)) from by
        simp [load_fields, hmk, hv, Except.bind, bind]] at h'
      have hpres := load_fields_pres line sf4post (sset a1 "autoflag" (.str r)) ser "autoflag"
        (by decide) h'
      unfold pick_evaluation_mode
      rw [hpres, sget_sset_self]
      simp only [Option.getD_some]
      rw [if_neg (by
        intro hcon
        injection hcon with hcon
        exact hr hcon)]

/-- C5 witness: the concrete hour-24 pick line (blank autoflag column)
decodes to a record whose evaluation mode is automatic. -/
theorem c5_witness : (load_sline g4line "4").map pick_evaluation_mode =
    Except.ok "automatic" := by
  cases hser : load_sline g4line "4" with
  | error e =>
      have hok : isErr (load_sline g4line "4") = false := by decide
      rw [hser] at hok
      simp [isErr] at hok
  | ok ser =>
      simp only [Except.map]
      rw [c5_theorem g4line ser hser]

end Seisobs
